import Mathlib

/-!
# Verification of the MLB batting-average visualization dashboard

Shallow embedding of the repository's JavaScript source:

* `src/unnamed/part_000` — `BattingVisualizer` (chart/table rendering,
  hover highlighting, `fadeColor`) and `MlbStatsClient`
  (`getPlayerBattingStats`, `extractBattingData`, `getMockBattingStats`);
* `src/js/app.js` — controller (`fetchAndVisualizeData`, `updateStatsInfo`);
* `src/js/teamColors.js` — `MLB_TEAM_COLORS` and `getTeamColors`.

JSON/JavaScript values are embedded as the inductive type `JVal`.
JavaScript numbers are modelled as exact rationals plus an explicit `vnan`
constructor; IEEE-754 rounding is not modelled, so statements about numeric
equality are exact where the JavaScript computes within double precision.
Exceptions (`throw` / `TypeError`) are modelled with `Option`: call sites
that sit inside a `try { … } catch { … }` in the source map `none` to the
catch result, mirroring the source's control flow.
-/

/-- A JavaScript value as it can appear in an API payload or be produced by
the normalizer.  `vundefined` is `undefined`, `vnan` is the number `NaN`
(JSON payloads themselves never contain `vundefined`/`vnan`, but field accesses
and numeric coercions produce them).  Objects are insertion-ordered field
lists with unique keys, matching JS object literals. -/
inductive JVal where
  | vundefined : JVal
  | vnull : JVal
  | vbool : Bool → JVal
  | vnum : ℚ → JVal
  | vnan : JVal
  | vstr : String → JVal
  | varr : List JVal → JVal
  | vobj : List (String × JVal) → JVal
deriving Repr

/-- JS truthiness: `undefined`, `null`, `false`, `0`, `NaN` and `""` are
falsy; every object and array (even empty) is truthy. -/
def truthy : JVal → Bool
  | .vundefined => false
  | .vnull => false
  | .vbool b => b
  | .vnum q => q ≠ 0
  | .vnan => false
  | .vstr s => s ≠ ""
  | .varr _ => true
  | .vobj _ => true

/-- `a || b` in JS: the first operand if truthy, otherwise the second. -/
def jsOr (a b : JVal) : JVal := if truthy a then a else b

/-- First-match lookup in an object's field list (keys are unique, so this
agrees with JS property lookup on own properties). -/
def lookupField : List (String × JVal) → String → JVal
  | [], _ => .vundefined
  | (k, v) :: rest, key => if k = key then v else lookupField rest key

/-- Property access `recv.key` for the receivers the source dereferences.
Strings and arrays expose `length`; other own properties of primitives are
`undefined`.  In JS, accessing a property of `null`/`undefined` throws;
every call site in the source either guards with a truthiness test or sits
in a `try`, and those sites branch on `vnull`/`vundefined` explicitly before
calling `getF`, so `getF` itself is only given non-throwing receivers. -/
def getF : JVal → String → JVal
  | .vobj l, key => lookupField l key
  | .vstr s, key => if key = "length" then .vnum s.length else .vundefined
  | .varr l, key => if key = "length" then .vnum l.length else .vundefined
  | _, _ => .vundefined

/-- Index access `recv[0]` (used by `getPlayerBattingStats`'s emptiness
check).  Arrays yield their head, strings their first character. -/
def idx0 : JVal → JVal
  | .varr (x :: _) => x
  | .varr [] => .vundefined
  | .vstr s =>
    match s.data with
    | c :: _ => .vstr (String.mk [c])
    | [] => .vundefined
  | .vobj l => lookupField l "0"
  | _ => .vundefined

/-- Replace the value of key `key` in place (JS semantics: a duplicate key
in an object literal keeps its original position but takes the new value);
append if absent. -/
def setField : List (String × JVal) → String → JVal → List (String × JVal)
  | [], key, v => [(key, v)]
  | (k, w) :: rest, key, v =>
    if k = key then (k, v) :: rest else (k, w) :: setField rest key v

def setFields (l : List (String × JVal)) : List (String × JVal) → List (String × JVal)
  | [] => l
  | (k, v) :: rest => setFields (setField l k v) rest

/-- Own enumerable fields contributed by `{...x}` spread: objects give their
fields, arrays and strings give index-keyed entries, primitives give none. -/
def enumFields (i : ℕ) : List JVal → List (String × JVal)
  | [] => []
  | x :: xs => (toString i, x) :: enumFields (i + 1) xs

def enumCharFields (i : ℕ) : List Char → List (String × JVal)
  | [] => []
  | c :: cs => (toString i, JVal.vstr (String.mk [c])) :: enumCharFields (i + 1) cs

def spreadFields : JVal → List (String × JVal)
  | .vobj l => l
  | .varr l => enumFields 0 l
  | .vstr s => enumCharFields 0 s.data
  | _ => []

/-! ## Numeric coercions: `parseFloat`, `parseInt`, `Number()` -/

def isWsChar (c : Char) : Bool :=
  c = ' ' || c = '\t' || c = '\n' || c = '\r' || c = '\x0b' || c = '\x0c'

def isDigitC (c : Char) : Bool := '0' ≤ c && c ≤ '9'

def isHexDigitC (c : Char) : Bool :=
  isDigitC c || ('a' ≤ c && c ≤ 'f') || ('A' ≤ c && c ≤ 'F')

def decDigitsVal (l : List Char) : ℕ :=
  l.foldl (fun a c => a * 10 + (c.toNat - 48)) 0

def hexDigitVal (c : Char) : ℕ :=
  if isDigitC c then c.toNat - 48
  else if 'a' ≤ c && c ≤ 'f' then c.toNat - 87
  else c.toNat - 55

def hexDigitsVal (l : List Char) : ℕ :=
  l.foldl (fun a c => a * 16 + hexDigitVal c) 0

/-- Digits of an exponent suffix after the `e`/`E`: optional sign, digits.
`parseFloat` backtracks when the exponent has no digits, so that case
contributes `0`. -/
def expDigits (r : List Char) : ℤ :=
  match r with
  | '-' :: d =>
    let ds := d.takeWhile isDigitC
    if ds = [] then 0 else -(decDigitsVal ds : ℤ)
  | '+' :: d =>
    let ds := d.takeWhile isDigitC
    if ds = [] then 0 else (decDigitsVal ds : ℤ)
  | d =>
    let ds := d.takeWhile isDigitC
    if ds = [] then 0 else (decDigitsVal ds : ℤ)

/-- Exponent suffix of a float literal: `e`/`E`, optional sign, digits;
a missing or malformed exponent contributes the factor `10 ^ 0`. -/
def expVal (l : List Char) : ℤ :=
  match l with
  | 'e' :: r => expDigits r
  | 'E' :: r => expDigits r
  | _ => 0

/-- `parseFloat` on a string: skip whitespace, optional sign, then the
longest decimal-literal prefix (`digits`, `.digits`, `digits.digits`,
optional exponent); `NaN` when no mantissa digit is found.  The `Infinity`
literal is not modelled (no infinities in the rational embedding); no
payload or claim exercises it. -/
def parseFloatStr (s : String) : JVal :=
  let l0 := s.data.dropWhile isWsChar
  let sgn : ℚ := match l0 with
    | '-' :: _ => -1
    | _ => 1
  let l1 : List Char := match l0 with
    | '-' :: r => r
    | '+' :: r => r
    | r => r
  let ip := l1.takeWhile isDigitC
  let l2 := l1.dropWhile isDigitC
  let fp : List Char := match l2 with
    | '.' :: r => r.takeWhile isDigitC
    | _ => []
  let l3 : List Char := match l2 with
    | '.' :: r => r.dropWhile isDigitC
    | r => r
  if ip = [] && fp = [] then .vnan
  else
    let mant : ℚ := (decDigitsVal ip : ℚ) + (decDigitsVal fp : ℚ) / (10 ^ fp.length)
    .vnum (sgn * mant * (10 : ℚ) ^ expVal l3)

/-- `parseInt(s, 10)`: skip whitespace, optional sign, longest run of
decimal digits; `NaN` when empty. -/
def parseIntDecStr (s : String) : JVal :=
  let l0 := s.data.dropWhile isWsChar
  let sgn : ℤ := match l0 with
    | '-' :: _ => -1
    | _ => 1
  let l1 : List Char := match l0 with
    | '-' :: r => r
    | '+' :: r => r
    | r => r
  let ds := l1.takeWhile isDigitC
  if ds = [] then .vnan else .vnum ((sgn * (decDigitsVal ds : ℤ) : ℤ) : ℚ)

/-- `parseInt(s, 16)` (used by `fadeColor` on hex colour slices): skip
whitespace, optional sign, optional `0x`/`0X`, longest run of hex digits;
`none` stands for `NaN`. -/
def parseIntHexStr (s : String) : Option ℤ :=
  let l0 := s.data.dropWhile isWsChar
  let sgn : ℤ := match l0 with
    | '-' :: _ => -1
    | _ => 1
  let l1 : List Char := match l0 with
    | '-' :: r => r
    | '+' :: r => r
    | r => r
  let l2 : List Char := match l1 with
    | '0' :: 'x' :: r => r
    | '0' :: 'X' :: r => r
    | r => r
  let ds := l2.takeWhile isHexDigitC
  if ds = [] then none else some (sgn * (hexDigitsVal ds : ℤ))

/-- Truncation toward zero, as JS `parseInt(String(q), 10)` performs on an
ordinary number. -/
def ratTrunc (q : ℚ) : ℤ := if 0 ≤ q then ⌊q⌋ else ⌈q⌉

/-- `Number(s)` coercion of a string (used when JS compares a string with
`>` or `===` against a number): trimmed empty string is `0`; otherwise the
whole trimmed string must be a signed decimal literal, else `NaN` (`none`).
Hex literals and `Infinity` are not modelled; no payload or claim
exercises them. -/
def strToNumberQ (s : String) : Option ℚ :=
  let l0 := (s.data.dropWhile isWsChar).reverse.dropWhile isWsChar |>.reverse
  if l0 = [] then some 0
  else
    let sgn : ℚ := match l0 with
      | '-' :: _ => -1
      | _ => 1
    let l1 : List Char := match l0 with
      | '-' :: r => r
      | '+' :: r => r
      | r => r
    let ip := l1.takeWhile isDigitC
    let l2 := l1.dropWhile isDigitC
    let fp : List Char := match l2 with
      | '.' :: r => r.takeWhile isDigitC
      | _ => []
    let l3 : List Char := match l2 with
      | '.' :: r => r.dropWhile isDigitC
      | r => r
    let rest : List Char := match l3 with
      | 'e' :: '-' :: d => d.dropWhile isDigitC
      | 'e' :: '+' :: d => d.dropWhile isDigitC
      | 'e' :: d => d.dropWhile isDigitC
      | 'E' :: '-' :: d => d.dropWhile isDigitC
      | 'E' :: '+' :: d => d.dropWhile isDigitC
      | 'E' :: d => d.dropWhile isDigitC
      | r => r
    if ip = [] && fp = [] then none
    else if rest ≠ [] then none
    else
      let mant : ℚ := (decDigitsVal ip : ℚ) + (decDigitsVal fp : ℚ) / (10 ^ fp.length)
      some (sgn * mant * (10 : ℚ) ^ expVal l3)

/-- `parseFloat(v)` for a `JVal`: `String(v)` then string parse.  A number
round-trips through its string form, so that case is the identity.  The
first element determines an array's parse (`[x, …].toString()` is
`String(x) + "," + …`, and `,` terminates a float literal); nesting beyond
one array level is approximated as `NaN`, which no payload or claim
exercises.  `undefined`, `null`, booleans and plain objects stringify to
non-numeric text, hence `NaN`. -/
def parseFloatPrim : JVal → JVal
  | .vstr s => parseFloatStr s
  | .vnum q => .vnum q
  | _ => .vnan

def parseFloatJ : JVal → JVal
  | .vstr s => parseFloatStr s
  | .vnum q => .vnum q
  | .varr (x :: _) => parseFloatPrim x
  | _ => .vnan

/-- `parseInt(v, 10)`: same stringify-then-parse scheme.  On a number this
truncates toward zero (the scientific-notation quirk for `|q| < 1e-6` or
`≥ 1e21`, where `String(q)` uses an exponent, is not modelled; no payload
or claim exercises it). -/
def parseIntPrim : JVal → JVal
  | .vstr s => parseIntDecStr s
  | .vnum q => .vnum ((ratTrunc q : ℤ) : ℚ)
  | _ => .vnan

def parseIntJ : JVal → JVal
  | .vstr s => parseIntDecStr s
  | .vnum q => .vnum ((ratTrunc q : ℤ) : ℚ)
  | .varr (x :: _) => parseIntPrim x
  | _ => .vnan

/-- A JS value of number type (`typeof v === 'number'`): a finite rational
or `NaN` in this embedding. -/
def isNumberV : JVal → Bool
  | .vnum _ => true
  | .vnan => true
  | _ => false

/-! ## JS comparisons used by the client -/

/-- `v > 0` after JS coercion: numbers compare directly (`NaN` fails every
comparison), booleans coerce to `0`/`1`, strings through `Number()`;
`undefined`/`null`/plain objects coerce to `NaN`/`0` and fail.  Arrays
coerce through their string form; only the cases that can reach this test
in the source are modelled, arrays conservatively as `false`. -/
def gtZeroJs : JVal → Bool
  | .vnum q => 0 < q
  | .vbool b => b
  | .vstr s =>
    match strToNumberQ s with
    | some q => 0 < q
    | none => false
  | _ => false

/-- Strict equality `v === 0`. -/
def strictEqZero : JVal → Bool
  | .vnum q => q = 0
  | _ => false

/-- `recv.length` as the source writes it. -/
def lengthOfJ (v : JVal) : JVal := getF v "length"

/-! ## The descending-average sort

`extractBattingData`, `updateVisualization` and `addPlayerTable` all sort
with the comparator `(a, b) => b.avg - a.avg`.  For records whose `avg`
values are real numbers this comparator is consistent, and ECMAScript
requires `Array.prototype.sort` to be stable (and correct for consistent
comparators), so a stable insertion sort is an exact model.  When some
`avg` is `NaN` the comparator returns `NaN`, which the ECMAScript
`SortCompare` normalizes to `+0` — an inconsistent comparator for which
the resulting order is implementation-defined; the insertion sort below
fixes one of the admissible orders (every theorem about the `NaN` case
holds for all admissible orders). -/

def avgOf (r : JVal) : JVal := getF r "avg"

/-- `p > q` on JS numbers; any comparison involving `NaN` (or a
non-number, which cannot reach this comparator in the claims' scope) is
false. -/
def jsGTval : JVal → JVal → Bool
  | .vnum p, .vnum q => p > q
  | _, _ => false

/-- `a.avg` must strictly precede `b.avg` in descending order. -/
def gtRec (a b : JVal) : Bool := jsGTval (avgOf a) (avgOf b)

/-- Stable insert for descending order: walk past `y` only while `y` must
strictly precede `x`; on ties (or `NaN`) `x` keeps its earlier position. -/
def insertRec (x : JVal) : List JVal → List JVal
  | [] => [x]
  | y :: ys => if gtRec y x then y :: insertRec x ys else x :: y :: ys

def sortAvgDesc : List JVal → List JVal
  | [] => []
  | x :: xs => insertRec x (sortAvgDesc xs)

/-- `a.avg ≥ b.avg` with both real: the claims' reading of "non-increasing
in `avg`" (a pair involving `NaN` is never non-increasing, as in IEEE). -/
def geNumB : JVal → JVal → Bool
  | .vnum p, .vnum q => p ≥ q
  | _, _ => false

def isSortedDesc : List JVal → Bool
  | [] => true
  | [_] => true
  | a :: b :: t => geNumB (avgOf a) (avgOf b) && isSortedDesc (b :: t)

/-- The record's `avg` field is a real (non-`NaN`) number. -/
def realAvg (r : JVal) : Bool :=
  match avgOf r with
  | .vnum _ => true
  | _ => false

/-! ## `MlbStatsClient.extractBattingData` -/

/-- The predicate of `data.stats.find(stat => stat.group?.displayName ===
'hitting')`: optional chaining makes a missing/primitive `group` yield
`undefined`, which is never strictly equal to `'hitting'`. -/
def isHittingElem (x : JVal) : Bool :=
  match getF x "group" with
  | .vnull => false
  | .vundefined => false
  | g =>
    match getF g "displayName" with
    | .vstr s => s = "hitting"
    | _ => false

/-- `Array.prototype.find` over the `stats` list.  `stat.group` throws a
`TypeError` when the element is `null`/`undefined` (`none`); otherwise
`some none` = not found, `some (some h)` = first match. -/
def findHitting : List JVal → Option (Option JVal)
  | [] => some none
  | x :: xs =>
    match x with
    | .vnull => none
    | .vundefined => none
    | _ => if isHittingElem x then some (some x) else findHitting xs

/-- The per-split record builder of the API branch (the arrow function
inside `hittingStats.splits.map`), for a split that is not
`null`/`undefined`. -/
def mapSplit (split : JVal) : JVal :=
  let player := jsOr (getF split "player") (.vobj [])
  let team := jsOr (getF split "team") (.vobj [])
  let stats := jsOr (getF split "stat") (.vobj [])
  .vobj
    [ ("id", getF player "id")
    , ("name", jsOr (getF player "fullName")
        (jsOr (getF player "lastName")
          (jsOr (getF player "name") (.vstr "Unknown Player"))))
    , ("team", jsOr (getF team "name") (.vstr "Unknown Team"))
    , ("avg", parseFloatJ (jsOr (getF stats "avg")
        (jsOr (getF stats "battingAverage") (.vnum 0))))
    , ("atBats", parseIntJ (jsOr (getF stats "atBats") (.vnum 0)))
    , ("hits", parseIntJ (jsOr (getF stats "hits") (.vnum 0)))
    , ("homeRuns", parseIntJ (jsOr (getF stats "homeRuns") (.vnum 0)))
    , ("rbi", parseIntJ (jsOr (getF stats "rbi") (.vnum 0))) ]

/-- `splits.map(split => …)`; `split.player` throws on a `null`/`undefined`
element, aborting the whole extraction (`none`). -/
def mapSplitsE : List JVal → Option (List JVal)
  | [] => some []
  | s :: rest =>
    match s with
    | .vnull => none
    | .vundefined => none
    | _ =>
      match mapSplitsE rest with
      | none => none
      | some rs => some (mapSplit s :: rs)

/-- The flat-branch record builder: `{...player, avg: parseFloat(player.avg),
…}` — spread the source object, then overwrite the five numeric fields in
place.  `name`/`team`/`id` are whatever the spread contributed (possibly
nothing). -/
def mapFlat (player : JVal) : JVal :=
  .vobj (setFields (spreadFields player)
    [ ("avg", parseFloatJ (getF player "avg"))
    , ("atBats", parseIntJ (getF player "atBats"))
    , ("hits", parseIntJ (getF player "hits"))
    , ("homeRuns", parseIntJ (getF player "homeRuns"))
    , ("rbi", parseIntJ (getF player "rbi")) ])

/-- `playerBattingStats.map(player => …)`; `player.avg` throws on a
`null`/`undefined` element. -/
def mapFlatE : List JVal → Option (List JVal)
  | [] => some []
  | p :: rest =>
    match p with
    | .vnull => none
    | .vundefined => none
    | _ =>
      match mapFlatE rest with
      | none => none
      | some rs => some (mapFlat p :: rs)

/-- The body of `extractBattingData` for a receiver that is not
`null`/`undefined` (on those, `data.stats` throws and the `catch` yields
`[]`; see `extractBattingData`).  `some out` below models an early
`return out` (or a caught throw resolving to `out = []`); `none` models
falling through to the flat-shape check. -/
def apiStep (data : JVal) : Option (List JVal) :=
  let stats := getF data "stats"
  if truthy stats && gtZeroJs (lengthOfJ stats) then
    match stats with
    | .varr l =>
      match findHitting l with
      | none => some []
      | some none => none
      | some (some h) =>
        let sp := getF h "splits"
        if truthy h && truthy sp && gtZeroJs (lengthOfJ sp) then
          match sp with
          | .varr splits =>
            match mapSplitsE splits with
            | none => some []
            | some rs => some (sortAvgDesc rs)
          | _ => some []
        else none
    | _ => some []
  else none

/-- The flat-shape check reached when the API branch falls through:
`if (data.playerBattingStats && Array.isArray(...)) return mapped.sort`,
else the `throw`/`catch` yields `[]` (a truthy non-array value also ends
at `[]`, through `Array.isArray` being false and then the throw). -/
def flatStep (data : JVal) : List JVal :=
  let pbs := getF data "playerBattingStats"
  if truthy pbs then
    match pbs with
    | .varr l =>
      match mapFlatE l with
      | none => []
      | some rs => sortAvgDesc rs
    | _ => []
  else []

def extractCore (data : JVal) : List JVal :=
  match apiStep data with
  | some out => out
  | none => flatStep data

/-- `MlbStatsClient.extractBattingData`.  The whole body sits in
`try { … } catch { return [] }`, so every thrown `TypeError` and the final
`throw new Error('Could not extract batting data from response')` all
resolve to the empty list; the function never propagates a failure to its
caller. -/
def extractBattingData : JVal → List JVal
  | .vnull => []
  | .vundefined => []
  | data => extractCore data

/-! ## `MlbStatsClient.getMockBattingStats` and `getPlayerBattingStats` -/

/-- One bundled sample record (all thirty share this shape). -/
def mockRec (id : ℚ) (name team : String) (avg atBats hits homeRuns rbi : ℚ) : JVal :=
  .vobj
    [ ("id", .vnum id), ("name", .vstr name), ("team", .vstr team)
    , ("avg", .vnum avg), ("atBats", .vnum atBats), ("hits", .vnum hits)
    , ("homeRuns", .vnum homeRuns), ("rbi", .vnum rbi) ]

/-- The bundled fallback dataset embedded in `getMockBattingStats`. -/
def mockList : List JVal :=
  [ mockRec 1 "Luis Arraez" "San Diego Padres" (mkRat 329 1000) 432 142 8 52
  , mockRec 2 "Freddie Freeman" "Los Angeles Dodgers" (mkRat 318 1000) 408 130 25 82
  , mockRec 3 "Vladimir Guerrero Jr." "Toronto Blue Jays" (mkRat 317 1000) 420 133 30 93
  , mockRec 4 "Bobby Witt Jr." "Kansas City Royals" (mkRat 315 1000) 425 134 23 75
  , mockRec 5 "Corey Seager" "Texas Rangers" (mkRat 313 1000) 402 126 32 94
  , mockRec 6 "Steven Kwan" "Cleveland Guardians" (mkRat 310 1000) 415 129 9 48
  , mockRec 7 "Mookie Betts" "Los Angeles Dodgers" (mkRat 307 1000) 401 123 24 82
  , mockRec 8 "Juan Soto" "New York Yankees" (mkRat 305 1000) 390 119 35 99
  , mockRec 9 "Gunnar Henderson" "Baltimore Orioles" (mkRat 304 1000) 413 126 28 86
  , mockRec 10 "Yordan Alvarez" "Houston Astros" (mkRat 302 1000) 386 117 33 97
  , mockRec 11 "Shohei Ohtani" "Los Angeles Dodgers" (mkRat 299 1000) 398 119 40 104
  , mockRec 12 "Michael Harris II" "Atlanta Braves" (mkRat 298 1000) 408 122 18 70
  , mockRec 13 "Corbin Carroll" "Arizona Diamondbacks" (mkRat 297 1000) 400 119 20 66
  , mockRec 14 "Francisco Lindor" "New York Mets" (mkRat 295 1000) 418 123 27 85
  , mockRec 15 "Rafael Devers" "Boston Red Sox" (mkRat 293 1000) 412 121 32 88
  , mockRec 16 "Bryce Harper" "Philadelphia Phillies" (mkRat 292 1000) 410 120 31 92
  , mockRec 17 "Kyle Tucker" "Houston Astros" (mkRat 290 1000) 405 117 29 89
  , mockRec 18 "Aaron Judge" "New York Yankees" (mkRat 289 1000) 400 116 45 107
  , mockRec 19 "Elly De La Cruz" "Cincinnati Reds" (mkRat 287 1000) 395 113 25 72
  , mockRec 20 "Julio Rodriguez" "Seattle Mariners" (mkRat 286 1000) 405 116 26 81
  , mockRec 21 "Jackson Holliday" "Baltimore Orioles" (mkRat 284 1000) 390 111 17 62
  , mockRec 22 "Jose Ramirez" "Cleveland Guardians" (mkRat 283 1000) 410 116 30 95
  , mockRec 23 "Austin Riley" "Atlanta Braves" (mkRat 280 1000) 415 116 29 88
  , mockRec 24 "Bo Bichette" "Toronto Blue Jays" (mkRat 278 1000) 420 117 20 73
  , mockRec 25 "Ronald Acu√±a Jr." "Atlanta Braves" (mkRat 277 1000) 400 111 25 78
  , mockRec 26 "Trea Turner" "Philadelphia Phillies" (mkRat 275 1000) 418 115 22 74
  , mockRec 27 "Paul Goldschmidt" "St. Louis Cardinals" (mkRat 272 1000) 405 110 24 79
  , mockRec 28 "Fernando Tatis Jr." "San Diego Padres" (mkRat 270 1000) 392 106 32 89
  , mockRec 29 "Luis Robert Jr." "Chicago White Sox" (mkRat 268 1000) 410 110 35 90
  , mockRec 30 "Nolan Arenado" "St. Louis Cardinals" (mkRat 265 1000) 408 108 23 77 ]

/-- `getMockBattingStats(season)`: resolves to
`{season: season || 2025, playerBattingStats: [...]}`. -/
def getMockBattingStats (season : JVal) : JVal :=
  .vobj [("season", jsOr season (.vnum 2025)), ("playerBattingStats", .varr mockList)]

/-- The outcome of `fetchData`: `fail` covers a transport rejection, a
non-2xx status (the `!response.ok` throw) and a JSON parse failure;
`ok d` is a parsed JSON body `d`. -/
inductive NetOutcome where
  | fail : NetOutcome
  | ok : JVal → NetOutcome

/-- The zero-rows test in `getPlayerBattingStats`:
`!data || !data.stats || !data.stats[0] || !data.stats[0].splits ||
data.stats[0].splits.length === 0`.  Each disjunct is truthiness-guarded by
the previous one, so the total `getF`/`idx0` agree with JS here. -/
def emptyCheck (d : JVal) : Bool :=
  !truthy d
  || !truthy (getF d "stats")
  || !truthy (idx0 (getF d "stats"))
  || !truthy (getF (idx0 (getF d "stats")) "splits")
  || strictEqZero (lengthOfJ (getF (idx0 (getF d "stats")) "splits"))

/-- `MlbStatsClient.getPlayerBattingStats(season)`: a failed fetch is
caught and resolves to the mock payload; a successful fetch whose body
fails the zero-rows test also resolves to the mock payload (built with
`seasonYear = season || 2025`); otherwise the body is returned as-is.
The function never rejects. -/
def getPlayerBattingStats (season : JVal) (net : NetOutcome) : JVal :=
  match net with
  | .fail => getMockBattingStats season
  | .ok d =>
    if emptyCheck d then getMockBattingStats (jsOr season (.vnum 2025)) else d

/-! ## The controller (`app.js`, `fetchAndVisualizeData`) -/

/-- What `fetchAndVisualizeData` leaves on the page.  `errorMessage` is the
`catch` branch (clear the visualization, show `.error-message` text); it is
reachable only if a step throws, and the modelled steps
(`getPlayerBattingStats`, `extractBattingData`, the render calls) are total
— in particular `extractBattingData` catches its own shape error
internally.  `chartAndNoDataMsg` is the path where the chart is built from
an empty record list and `updateStatsInfo` writes
"No Batting Data Available". -/
inductive RenderResult where
  | chartAndStats : List JVal → RenderResult
  | chartAndNoDataMsg : RenderResult
  | errorMessage : RenderResult

def fetchAndVisualizeData (season : JVal) (net : NetOutcome) : RenderResult :=
  let data := extractBattingData (getPlayerBattingStats season net)
  match data with
  | [] => .chartAndNoDataMsg
  | _ => .chartAndStats data

/-! ## `teamColors.js`: `MLB_TEAM_COLORS` and `getTeamColors` -/

/-- What a property read on the `MLB_TEAM_COLORS` object literal can
produce.  `colorPair` is an own entry of the table.  Because the literal
inherits from `Object.prototype`, reading a key such as `"toString"` that
is absent from the table yields the inherited method (`protoFn`), and
`"__proto__"` yields `Object.prototype` itself (`protoObj`) — both truthy
and neither a `{primary, secondary}` pair.  Any other absent key is
`undefined`. -/
inductive JsProp where
  | colorPair : String → String → JsProp
  | protoFn : String → JsProp
  | protoObj : JsProp
  | absent : JsProp
deriving DecidableEq, Repr

/-- The own entries of `MLB_TEAM_COLORS` (name, primary, secondary). -/
def MLB_TEAM_COLORS : List (String × String × String) :=
  [ ("Baltimore Orioles", "#DF4601", "#000000")
  , ("Boston Red Sox", "#BD3039", "#0C2340")
  , ("New York Yankees", "#0C2340", "#FFFFFF")
  , ("Tampa Bay Rays", "#092C5C", "#8FBCE6")
  , ("Toronto Blue Jays", "#134A8E", "#1D2D5C")
  , ("Chicago White Sox", "#27251F", "#C4CED4")
  , ("Cleveland Guardians", "#00385D", "#E50022")
  , ("Detroit Tigers", "#0C2340", "#FA4616")
  , ("Kansas City Royals", "#004687", "#BD9B60")
  , ("Minnesota Twins", "#002B5C", "#D31145")
  , ("Houston Astros", "#002D62", "#EB6E1F")
  , ("Los Angeles Angels", "#BA0021", "#003263")
  , ("Oakland Athletics", "#003831", "#EFB21E")
  , ("Seattle Mariners", "#0C2C56", "#005C5C")
  , ("Texas Rangers", "#003278", "#C0111F")
  , ("Atlanta Braves", "#CE1141", "#13274F")
  , ("Miami Marlins", "#00A3E0", "#FF6600")
  , ("New York Mets", "#002D72", "#FF5910")
  , ("Philadelphia Phillies", "#E81828", "#002D72")
  , ("Washington Nationals", "#AB0003", "#14225A")
  , ("Chicago Cubs", "#0E3386", "#CC3433")
  , ("Cincinnati Reds", "#C6011F", "#000000")
  , ("Milwaukee Brewers", "#0A2351", "#B6922E")
  , ("Pittsburgh Pirates", "#27251F", "#FDB827")
  , ("St. Louis Cardinals", "#C41E3A", "#0C2340")
  , ("Arizona Diamondbacks", "#A71930", "#E3D4AD")
  , ("Colorado Rockies", "#33006F", "#C4CED4")
  , ("Los Angeles Dodgers", "#005A9C", "#FFFFFF")
  , ("San Diego Padres", "#2F241D", "#FFC425")
  , ("San Francisco Giants", "#FD5A1E", "#27251F")
  , ("Unknown Team", "#666666", "#CCCCCC") ]

/-- The string keys of `Object.prototype` own properties that a plain
object literal inherits (methods, plus the `__proto__` accessor). -/
def objectProtoKeys : List String :=
  [ "constructor", "hasOwnProperty", "isPrototypeOf", "propertyIsEnumerable"
  , "toLocaleString", "toString", "valueOf", "__defineGetter__"
  , "__defineSetter__", "__lookupGetter__", "__lookupSetter__", "__proto__" ]

def lookupColors : List (String × String × String) → String → Option (String × String)
  | [], _ => none
  | (k, p, s) :: rest, key => if k = key then some (p, s) else lookupColors rest key

/-- Property read `MLB_TEAM_COLORS[teamName]`: own entry first, then the
prototype chain, then `undefined`. -/
def mlbTeamColorsRead (teamName : String) : JsProp :=
  match lookupColors MLB_TEAM_COLORS teamName with
  | some (p, s) => .colorPair p s
  | none =>
    if teamName = "__proto__" then .protoObj
    else if teamName ∈ objectProtoKeys then .protoFn teamName
    else .absent

def truthyProp : JsProp → Bool
  | .absent => false
  | _ => true

/-- `getTeamColors(teamName)`:
`MLB_TEAM_COLORS[teamName] || MLB_TEAM_COLORS["Unknown Team"]`. -/
def getTeamColors (teamName : String) : JsProp :=
  let v := mlbTeamColorsRead teamName
  if truthyProp v then v else mlbTeamColorsRead "Unknown Team"

def isColorPair : JsProp → Bool
  | .colorPair _ _ => true
  | _ => false

/-! ## `BattingVisualizer.fadeColor` -/

/-- The regex replace of the `rgba` branch:
`color.replace(/[\d\.]+\)$/, '0.2)')` — when the string ends with a
non-empty run of digits/dots followed by `)`, replace that suffix with
`0.2)`; otherwise no match, string unchanged. -/
def isDigitDot (c : Char) : Bool := isDigitC c || c = '.'

def rgbaReplaceL (l : List Char) : List Char :=
  match l.reverse with
  | ')' :: rest =>
    let run := rest.takeWhile isDigitDot
    if run = [] then l
    else (rest.dropWhile isDigitDot).reverse ++ ['0', '.', '2', ')']
  | _ => l

/-- `color.replace(')', ', 0.2)')`: splice `, 0.2` before the first `)`;
unchanged if there is none. -/
def insertAlphaL : List Char → List Char
  | [] => []
  | c :: rest =>
    if c = ')' then [',', ' ', '0', '.', '2', ')'] ++ rest
    else c :: insertAlphaL rest

/-- `String(n)` for a `parseInt` result (`NaN` prints as "NaN"). -/
def numToStr : Option ℤ → String
  | some n => toString n
  | none => "NaN"

/-- `BattingVisualizer.fadeColor(color)`, on the character list.  For
`#…`, parse the three 2-character hex slices (`slice(1,3)`, `slice(3,5)`,
`slice(5,7)`) and build `rgba(r, g, b, 0.2)`.  For a string that starts
with `rgb`, the `rgba` sub-branch runs the regex replace
(`rgbaReplaceL`); the plain-`rgb` branch splices `, 0.2` before the first
`)` and rewrites the leading `rgb` to `rgba` (the first occurrence of
`"rgb"` is at index 0 because the branch condition is
`startsWith('rgb')`).  Anything else is returned unchanged. -/
def fadeColorL (l : List Char) : List Char :=
  if ['#'].isPrefixOf l then
    ['r', 'g', 'b', 'a', '(']
      ++ (numToStr (parseIntHexStr (String.mk ((l.drop 1).take 2)))).data
      ++ [',', ' ']
      ++ (numToStr (parseIntHexStr (String.mk ((l.drop 3).take 2)))).data
      ++ [',', ' ']
      ++ (numToStr (parseIntHexStr (String.mk ((l.drop 5).take 2)))).data
      ++ [',', ' ', '0', '.', '2', ')']
  else if ['r', 'g', 'b'].isPrefixOf l then
    if ['r', 'g', 'b', 'a'].isPrefixOf l then rgbaReplaceL l
    else 'r' :: 'g' :: 'b' :: 'a' :: insertAlphaL (l.drop 3)
  else l

def fadeColor (color : String) : String := String.mk (fadeColorL color.data)

/-! ## `BattingVisualizer`: rendering and hover highlighting -/

/-- The visualizer's team-colour closures.  `getTeamColors` is always
truthy (worst case the `"Unknown Team"` fallback pair), so the
`colors ? colors.primary : '#666666'` conditional takes the first arm; a
prototype-inherited non-pair value has no `primary`/`secondary`, modelled
as the empty string for `undefined`. -/
def teamKey : JVal → String
  | .vstr s => s
  | _ => ""

def getTeamColor (team : JVal) : String :=
  match getTeamColors (teamKey team) with
  | .colorPair p _ => p
  | _ => ""

def getTeamSecondaryColor (team : JVal) : String :=
  match getTeamColors (teamKey team) with
  | .colorPair _ s => s
  | _ => ""

/-- The chart-facing output of `updateVisualization(data)`:
`visData = data.slice(0, 30)` sorted descending by `avg` (one bar per
entry, in order), the derived per-bar arrays, and the table rows of
`addPlayerTable(visData)`, which re-sorts a copy with the same
comparator. -/
structure VisOutput where
  visData : List JVal
  labels : List JVal
  avgValues : List JVal
  backgroundColors : List String
  borderColors : List String
  tableRows : List JVal

def updateVisualization (data : List JVal) : VisOutput :=
  let visData := sortAvgDesc (data.take 30)
  { visData := visData
  , labels := visData.map (fun p => getF p "name")
  , avgValues := visData.map (fun p => getF p "avg")
  , backgroundColors := visData.map (fun p => getTeamColor (getF p "team"))
  , borderColors := visData.map (fun p => getTeamSecondaryColor (getF p "team"))
  , tableRows := sortAvgDesc visData }

/-- The colour state `updateVisualization` leaves behind: the retained
originals (`this.originalBackgroundColors/originalBorderColors`, stored
before the chart is built and never mutated afterwards) and the live
arrays inside `chart.data.datasets[0]`. -/
structure ChartColors where
  originalBackground : List String
  originalBorder : List String
  background : List String
  border : List String

def chartInit (bg bd : List String) : ChartColors :=
  { originalBackground := bg, originalBorder := bd, background := bg, border := bd }

/-- `player.team !== teamToHighlight` with a string right-hand side: a
strict comparison against a string is true exactly for the equal string
(an object operand is never strictly equal to a string). -/
def teamEqStr : JVal → String → Bool
  | .vstr s, t => s = t
  | _, _ => false

/-- The colour array `highlightTeam` builds from the retained originals:
same-team bars keep their original colour, every other bar gets
`fadeColor` of its original colour. -/
def highlightColorsArr (T : String) (players : List JVal) (orig : List String) :
    List String :=
  List.zipWith (fun p c => if teamEqStr (getF p "team") T then c else fadeColor c)
    players orig

/-- `resetBarColors()`: copy the retained originals back into the live
arrays. -/
def resetBarColors (s : ChartColors) : ChartColors :=
  { s with background := s.originalBackground, border := s.originalBorder }

/-- `highlightTeam(teamToHighlight, players)`: overwrite both live arrays
with colours derived from the originals. -/
def highlightTeam (T : String) (players : List JVal) (s : ChartColors) : ChartColors :=
  { s with background := highlightColorsArr T players s.originalBackground
         , border := highlightColorsArr T players s.originalBorder }

/-- The pointer events wired in `updateVisualization`: `onHover` first
calls `resetBarColors()` and then, if a bar is active, `highlightTeam`
with that bar's team; the canvas `mouseleave` listener calls
`resetBarColors()`. -/
inductive ChartEvent where
  | hoverBar : String → ChartEvent
  | hoverNone : ChartEvent
  | mouseLeave : ChartEvent

def chartStep (players : List JVal) (s : ChartColors) : ChartEvent → ChartColors
  | .hoverBar T => highlightTeam T players (resetBarColors s)
  | .hoverNone => resetBarColors s
  | .mouseLeave => resetBarColors s

/-! ## `BattingVisualizer.clearObjects` and the legend -/

/-- The document state the visualizer's DOM operations touch: whether a
live chart handle is held (`this.chart !== null`) and the `id`s of the
extra elements currently attached. -/
structure VisualizerDoc where
  chart : Bool
  elementIds : List String
deriving DecidableEq, Repr

/-- `addTeamLegend(teams)`: remove any existing `#team-legend`, then
insert a fresh legend container whose id is `team-legend`. -/
def addTeamLegend (d : VisualizerDoc) : VisualizerDoc :=
  { d with elementIds := d.elementIds.erase "team-legend" ++ ["team-legend"] }

/-- `clearObjects()`: destroy the chart and null the handle, then remove
the element with id `custom-legend` if present.  (The legend the
visualizer actually creates has id `team-legend`.) -/
def clearObjects (d : VisualizerDoc) : VisualizerDoc :=
  { chart := false, elementIds := d.elementIds.erase "custom-legend" }

/-! ## `app.js`: `updateStatsInfo` -/

/-- `sum + item.avg` inside the reduce: numeric addition with `NaN`
propagation (the string-concatenation coercion JS would apply to a
string-valued `avg` is out of the claims' scope — normalized records carry
number-typed `avg` — and is conservatively `NaN` here). -/
def jsAddNum : JVal → JVal → JVal
  | .vnum p, .vnum q => .vnum (p + q)
  | _, _ => .vnan

/-- Division for the league average (the list is non-empty at the call
site, so the divisor is a positive integer; `x / 0` would be `Infinity`
in JS, out of this model). -/
def jsDivNum : JVal → JVal → JVal
  | .vnum p, .vnum q => if q = 0 then .vnan else .vnum (p / q)
  | _, _ => .vnan

/-- `data.reduce((sum, item) => sum + item.avg, 0)`. -/
def sumAvg (l : List JVal) : JVal :=
  l.foldl (fun acc r => jsAddNum acc (avgOf r)) (.vnum 0)

/-- The computed `avgBattingAvg` (the summary panel shows it via
`toFixed(3)`). -/
def avgBattingAvg (l : List JVal) : JVal :=
  jsDivNum (sumAvg l) (.vnum l.length)

/-- `(prev, current) => (prev.avg > current.avg) ? prev : current` —
keeps `prev` only when strictly greater, so an equal-`avg` `current`
replaces it. -/
def pickBest (prev current : JVal) : JVal :=
  if jsGTval (avgOf prev) (avgOf current) then prev else current

/-- `(prev, current) => (prev.avg < current.avg) ? prev : current`. -/
def pickWorst (prev current : JVal) : JVal :=
  if jsGTval (avgOf current) (avgOf prev) then prev else current

/-- `data.reduce(...)` with no initial value: seeded with the first
element (`updateStatsInfo` only reaches this with non-empty data). -/
def bestBatter : List JVal → JVal
  | [] => .vundefined
  | h :: t => t.foldl pickBest h

def worstBatter : List JVal → JVal
  | [] => .vundefined
  | h :: t => t.foldl pickWorst h

/-! ## Lemmas about the descending-average sort -/

/-- The real value of a record's `avg` (junk `0` when not real; only used
under a `realAvg` hypothesis). -/
def avgQ (r : JVal) : ℚ :=
  match avgOf r with
  | .vnum q => q
  | _ => 0

/-- Head comparison used to re-state `isSortedDesc` one step at a time. -/
def headGe (a : JVal) : List JVal → Bool
  | [] => true
  | b :: _ => geNumB (avgOf a) (avgOf b)

/-! ## Structure of the normalizer's output -/

/-- Every record the normalizer emits comes from one of the two record
builders. -/
def FromNormalizer (r : JVal) : Prop :=
  (∃ s, r = mapSplit s) ∨ (∃ p, r = mapFlat p)

/-! ## Claim C1 — unrecognized payload shape -/

/-- A payload that passes `getPlayerBattingStats`'s zero-rows check (it has
`stats[0].splits` non-empty) but matches neither normalizer shape: no split
group is named `hitting` and there is no `playerBattingStats` list. -/
def apiShapeless : JVal :=
  .vobj [("stats", .varr [.vobj [("splits", .varr [.vobj []])]])]

/-- A well-formed flat-shape payload with one numeric record. -/
def flatNum : JVal :=
  .vobj [("playerBattingStats", .varr [.vobj [("avg", .vnum (mkRat 3 10))]])]

/-- The record the normalizer produces from `flatNum`. -/
def recFlatNum : JVal :=
  .vobj [("avg", .vnum (mkRat 3 10)), ("atBats", .vnan), ("hits", .vnan),
    ("homeRuns", .vnan), ("rbi", .vnan)]

/-- A recognized flat-shape payload whose record has an unparsable `avg`
string and no `name`/`team` fields. -/
def flatBad : JVal :=
  .vobj [("playerBattingStats", .varr [.vobj [("avg", .vstr "abc")]])]

/-- The record the normalizer produces from `flatBad`. -/
def recFlatBad : JVal :=
  .vobj [("avg", .vnan), ("atBats", .vnan), ("hits", .vnan),
    ("homeRuns", .vnan), ("rbi", .vnan)]

/-- A flat-shape payload listing two numeric records in ascending order. -/
def flatTwo : JVal :=
  .vobj [("playerBattingStats", .varr
    [ .vobj [("name", .vstr "A"), ("avg", .vnum (mkRat 27 100))]
    , .vobj [("name", .vstr "B"), ("avg", .vnum (mkRat 31 100))] ])]

/-- A recognized flat-shape payload mixing an unparsable `avg` with a
numeric one. -/
def flatMix : JVal :=
  .vobj [("playerBattingStats", .varr
    [ .vobj [("avg", .vstr "abc")]
    , .vobj [("avg", .vnum (mkRat 3 10))] ])]

/-! ## Claim C4 — fallback on network failure or zero rows -/

def isStrV : JVal → Bool
  | .vstr _ => true
  | _ => false

def isRealNumV : JVal → Bool
  | .vnum _ => true
  | _ => false

/-- PlayerRecord-shape and `avg`-range check for one bundled record:
every field present with the stated type, and `avg ∈ [0.260, 0.330]`. -/
def mockRecOk (r : JVal) : Bool :=
  isRealNumV (getF r "id") && isStrV (getF r "name") && isStrV (getF r "team")
    && isRealNumV (getF r "atBats") && isRealNumV (getF r "hits")
    && isRealNumV (getF r "homeRuns") && isRealNumV (getF r "rbi")
    && (match getF r "avg" with
        | .vnum q => decide (mkRat 260 1000 ≤ q) && decide (q ≤ mkRat 330 1000)
        | _ => false)

/-- Two valid records for exercising the renderer. -/
def visTwo : List JVal :=
  [ .vobj [("name", .vstr "A"), ("team", .vstr "Boston Red Sox"),
      ("avg", .vnum (mkRat 27 100))]
  , .vobj [("name", .vstr "B"), ("team", .vstr "New York Mets"),
      ("avg", .vnum (mkRat 31 100))] ]

/-! ## Claim C6 — hover highlighting and reset -/

/-- The colour state after `updateVisualization` stored originals
`bg`/`bd` and an arbitrary sequence of pointer events was handled. -/
def chartRun (players : List JVal) (bg bd : List String)
    (evs : List ChartEvent) : ChartColors :=
  evs.foldl (chartStep players) (chartInit bg bd)

/-- Records for exercising the summary panel: `pA` and `pB` tie at .310,
`pC` is lower. -/
def pA : JVal := .vobj [("name", .vstr "A"), ("avg", .vnum (mkRat 31 100))]

def pB : JVal := .vobj [("name", .vstr "B"), ("avg", .vnum (mkRat 31 100))]

def pC : JVal := .vobj [("name", .vstr "C"), ("avg", .vnum (mkRat 29 100))]

/-! ## Claim C10 — `fadeColor` idempotence on recognized formats -/

/-- The claim's hex format `#rrggbb`: `#` followed by exactly six hex
digits. -/
def isHexColorFormat (s : String) : Bool :=
  match s.data with
  | '#' :: rest => rest.length = 6 && rest.all isHexDigitC
  | _ => false

def noParenC (l : List Char) : Bool := l.all (fun c => c ≠ ')')

/-- The claim's `rgb(...)` format: `rgb(` then a body free of `)`, closed
by a final `)`. -/
def isRgbColorFormat (s : String) : Bool :=
  match s.data with
  | 'r' :: 'g' :: 'b' :: '(' :: rest =>
    match rest.reverse with
    | ')' :: bodyRev => noParenC bodyRev
    | _ => false
  | _ => false

/-- The claim's `rgba(...)` format: `rgba(` then anything ending in a
non-empty digits/dots alpha run and the final `)` (the shape on which the
source's regex `[\d\.]+\)$` has a match). -/
def isRgbaColorFormat (s : String) : Bool :=
  match s.data with
  | 'r' :: 'g' :: 'b' :: 'a' :: '(' :: rest =>
    match rest.reverse with
    | ')' :: tail => !(tail.takeWhile isDigitDot).isEmpty
    | _ => false
  | _ => false

/-! ## Lemmas and claim verification -/

theorem parseFloatJ_isNumber (v : JVal) : isNumberV (parseFloatJ v) = true := by
  match v with
  | .vstr s =>
    show isNumberV (parseFloatStr s) = true
    unfold parseFloatStr
    dsimp only
    split <;> rfl
  | .vnum q => rfl
  | .varr [] => rfl
  | .varr (x :: _) =>
    show isNumberV (parseFloatPrim x) = true
    match x with
    | .vstr s =>
      show isNumberV (parseFloatStr s) = true
      unfold parseFloatStr
      dsimp only
      split <;> rfl
    | .vnum q => rfl
    | .vundefined | .vnull | .vbool _ | .vnan | .varr _ | .vobj _ => rfl
  | .vundefined | .vnull | .vbool _ | .vnan | .vobj _ => rfl

theorem parseIntJ_isNumber (v : JVal) : isNumberV (parseIntJ v) = true := by
  match v with
  | .vstr s =>
    show isNumberV (parseIntDecStr s) = true
    unfold parseIntDecStr
    dsimp only
    split <;> rfl
  | .vnum q => rfl
  | .varr [] => rfl
  | .varr (x :: _) =>
    show isNumberV (parseIntPrim x) = true
    match x with
    | .vstr s =>
      show isNumberV (parseIntDecStr s) = true
      unfold parseIntDecStr
      dsimp only
      split <;> rfl
    | .vnum q => rfl
    | .vundefined | .vnull | .vbool _ | .vnan | .varr _ | .vobj _ => rfl
  | .vundefined | .vnull | .vbool _ | .vnan | .vobj _ => rfl

theorem avgOf_of_realAvg {r : JVal} (h : realAvg r = true) :
    avgOf r = .vnum (avgQ r) := by
  unfold realAvg at h
  unfold avgQ
  cases hv : avgOf r <;> simp_all

theorem gtRec_eq_of_real {a b : JVal} (ha : realAvg a = true)
    (hb : realAvg b = true) : gtRec a b = decide (avgQ a > avgQ b) := by
  unfold gtRec
  rw [avgOf_of_realAvg ha, avgOf_of_realAvg hb]
  rfl

theorem geNumB_eq_of_real {a b : JVal} (ha : realAvg a = true)
    (hb : realAvg b = true) :
    geNumB (avgOf a) (avgOf b) = decide (avgQ a ≥ avgQ b) := by
  rw [avgOf_of_realAvg ha, avgOf_of_realAvg hb]
  rfl

theorem isSortedDesc_cons (a : JVal) (l : List JVal) :
    isSortedDesc (a :: l) = (headGe a l && isSortedDesc l) := by
  cases l <;> rfl

theorem mem_insertRec {y x : JVal} : ∀ {l : List JVal},
    y ∈ insertRec x l ↔ y = x ∨ y ∈ l := by
  intro l
  induction l with
  | nil => simp [insertRec]
  | cons z zs ih =>
    unfold insertRec
    split
    · simp only [List.mem_cons, ih]
      tauto
    · simp only [List.mem_cons]

theorem mem_sortAvgDesc {y : JVal} : ∀ {l : List JVal},
    y ∈ sortAvgDesc l ↔ y ∈ l := by
  intro l
  induction l with
  | nil => simp [sortAvgDesc]
  | cons x xs ih =>
    unfold sortAvgDesc
    rw [mem_insertRec]
    simp [ih]

theorem length_insertRec (x : JVal) : ∀ (l : List JVal),
    (insertRec x l).length = l.length + 1 := by
  intro l
  induction l with
  | nil => rfl
  | cons z zs ih =>
    unfold insertRec
    split
    · simp [ih]
    · simp

theorem length_sortAvgDesc : ∀ (l : List JVal),
    (sortAvgDesc l).length = l.length := by
  intro l
  induction l with
  | nil => rfl
  | cons x xs ih =>
    unfold sortAvgDesc
    rw [length_insertRec, ih]
    rfl

theorem headGe_insertRec {w x : JVal} {l : List JVal}
    (h1 : geNumB (avgOf w) (avgOf x) = true) (h2 : headGe w l = true) :
    headGe w (insertRec x l) = true := by
  cases l with
  | nil => exact h1
  | cons z zs =>
    unfold insertRec
    split
    · exact h2
    · exact h1

theorem insertRec_sorted {x : JVal} (hx : realAvg x = true) :
    ∀ {l : List JVal}, (∀ y ∈ l, realAvg y = true) →
      isSortedDesc l = true → isSortedDesc (insertRec x l) = true := by
  intro l
  induction l with
  | nil => intro _ _; rfl
  | cons y ys ih =>
    intro hl hs
    have hy : realAvg y = true := hl y (List.mem_cons_self y ys)
    rw [isSortedDesc_cons] at hs
    have hhead : headGe y ys = true := (Bool.and_eq_true _ _ |>.mp hs).1
    have hys : isSortedDesc ys = true := (Bool.and_eq_true _ _ |>.mp hs).2
    unfold insertRec
    split
    · rename_i hgt
      rw [isSortedDesc_cons]
      refine Bool.and_eq_true _ _ |>.mpr ⟨?_, ?_⟩
      · refine headGe_insertRec ?_ hhead
        rw [geNumB_eq_of_real hy hx]
        rw [gtRec_eq_of_real hy hx] at hgt
        simp only [decide_eq_true_eq] at *
        exact le_of_lt hgt
      · exact ih (fun z hz => hl z (List.mem_cons_of_mem y hz)) hys
    · rename_i hngt
      rw [isSortedDesc_cons]
      refine Bool.and_eq_true _ _ |>.mpr ⟨?_, ?_⟩
      · show geNumB (avgOf x) (avgOf y) = true
        rw [geNumB_eq_of_real hx hy]
        rw [gtRec_eq_of_real hy hx] at hngt
        simp only [decide_eq_true_eq] at *
        exact le_of_not_lt (fun hc => hngt hc)
      · rw [isSortedDesc_cons]
        exact Bool.and_eq_true _ _ |>.mpr ⟨hhead, hys⟩

theorem sortAvgDesc_sorted : ∀ {l : List JVal},
    (∀ y ∈ l, realAvg y = true) → isSortedDesc (sortAvgDesc l) = true := by
  intro l
  induction l with
  | nil => intro _; rfl
  | cons x xs ih =>
    intro hl
    unfold sortAvgDesc
    refine insertRec_sorted (hl x (List.mem_cons_self x xs)) ?_ ?_
    · intro y hy
      exact hl y (List.mem_cons_of_mem x (mem_sortAvgDesc.mp hy))
    · exact ih (fun y hy => hl y (List.mem_cons_of_mem x hy))

/-- Sortedness of a sort output follows from realness of the output's own
elements (the form in which the claims quantify). -/
theorem sortAvgDesc_sorted_of_out {l : List JVal}
    (h : ∀ y ∈ sortAvgDesc l, realAvg y = true) :
    isSortedDesc (sortAvgDesc l) = true :=
  sortAvgDesc_sorted (fun y hy => h y (mem_sortAvgDesc.mpr hy))

theorem mapSplitsE_mem : ∀ {l rs : List JVal}, mapSplitsE l = some rs →
    ∀ r ∈ rs, ∃ s, r = mapSplit s := by
  intro l
  induction l with
  | nil =>
    intro rs h r hr
    unfold mapSplitsE at h
    injection h with h
    subst h
    simp at hr
  | cons s rest ih =>
    intro rs h r hr
    unfold mapSplitsE at h
    split at h
    · exact absurd h (by simp)
    · exact absurd h (by simp)
    · split at h
      · exact absurd h (by simp)
      · rename_i rs0 heq
        injection h with h
        subst h
        rcases List.mem_cons.mp hr with hr | hr
        · exact ⟨s, hr⟩
        · exact ih heq r hr

theorem mapFlatE_mem : ∀ {l rs : List JVal}, mapFlatE l = some rs →
    ∀ r ∈ rs, ∃ p, r = mapFlat p := by
  intro l
  induction l with
  | nil =>
    intro rs h r hr
    unfold mapFlatE at h
    injection h with h
    subst h
    simp at hr
  | cons p rest ih =>
    intro rs h r hr
    unfold mapFlatE at h
    split at h
    · exact absurd h (by simp)
    · exact absurd h (by simp)
    · split at h
      · exact absurd h (by simp)
      · rename_i rs0 heq
        injection h with h
        subst h
        rcases List.mem_cons.mp hr with hr | hr
        · exact ⟨p, hr⟩
        · exact ih heq r hr

theorem apiStep_shape (d : JVal) :
    apiStep d = none ∨ apiStep d = some [] ∨
      ∃ l, apiStep d = some (sortAvgDesc l) ∧ ∀ r ∈ l, ∃ s, r = mapSplit s := by
  unfold apiStep
  dsimp only
  split
  · split
    · split
      · exact Or.inr (Or.inl rfl)
      · exact Or.inl rfl
      · split
        · split
          · split
            · exact Or.inr (Or.inl rfl)
            · rename_i rs heq
              exact Or.inr (Or.inr ⟨rs, rfl, mapSplitsE_mem heq⟩)
          · exact Or.inr (Or.inl rfl)
        · exact Or.inl rfl
    · exact Or.inr (Or.inl rfl)
  · exact Or.inl rfl

theorem flatStep_shape (d : JVal) :
    flatStep d = [] ∨
      ∃ l, flatStep d = sortAvgDesc l ∧ ∀ r ∈ l, ∃ p, r = mapFlat p := by
  unfold flatStep
  dsimp only
  split
  · split
    · split
      · exact Or.inl rfl
      · rename_i rs heq
        exact Or.inr ⟨rs, rfl, mapFlatE_mem heq⟩
    · exact Or.inl rfl
  · exact Or.inl rfl

theorem extractCore_shape (d : JVal) :
    extractCore d = [] ∨
      ∃ l, extractCore d = sortAvgDesc l ∧ ∀ r ∈ l, FromNormalizer r := by
  unfold extractCore
  rcases apiStep_shape d with h | h | ⟨l, h, hl⟩ <;> rw [h]
  · rcases flatStep_shape d with h2 | ⟨l, h2, hl⟩
    · exact Or.inl h2
    · exact Or.inr ⟨l, h2, fun r hr => Or.inr (hl r hr)⟩
  · exact Or.inl rfl
  · exact Or.inr ⟨l, rfl, fun r hr => Or.inl (hl r hr)⟩

theorem extract_shape (d : JVal) :
    extractBattingData d = [] ∨
      ∃ l, extractBattingData d = sortAvgDesc l ∧ ∀ r ∈ l, FromNormalizer r := by
  cases d with
  | vnull => exact Or.inl rfl
  | vundefined => exact Or.inl rfl
  | vbool b => exact extractCore_shape (.vbool b)
  | vnum q => exact extractCore_shape (.vnum q)
  | vnan => exact extractCore_shape .vnan
  | vstr s => exact extractCore_shape (.vstr s)
  | varr l => exact extractCore_shape (.varr l)
  | vobj l => exact extractCore_shape (.vobj l)

/-! ## Field typing of the produced records -/

theorem lookupField_setField_self (k : String) (v : JVal) :
    ∀ l, lookupField (setField l k v) k = v := by
  intro l
  induction l with
  | nil => simp [setField, lookupField]
  | cons kv rest ih =>
    obtain ⟨k1, v1⟩ := kv
    by_cases h : k1 = k
    · simp [setField, lookupField, h]
    · simp [setField, lookupField, h, ih]

theorem lookupField_setField_ne {k k2 : String} (v : JVal) (hne : k2 ≠ k) :
    ∀ l, lookupField (setField l k2 v) k = lookupField l k := by
  intro l
  induction l with
  | nil => simp [setField, lookupField, hne]
  | cons kv rest ih =>
    obtain ⟨k1, v1⟩ := kv
    by_cases h : k1 = k2
    · subst h
      simp [setField, lookupField, hne]
    · simp [setField, lookupField, h, ih]

theorem jsOr_truthy {a b : JVal} (hb : truthy b = true) :
    truthy (jsOr a b) = true := by
  unfold jsOr
  split
  · assumption
  · exact hb

/-- Every record the API branch builds carries number-typed `avg`,
`atBats`, `hits`, `homeRuns` and `rbi`, and truthy (hence present,
non-`null`) `name` and `team` thanks to the trailing
`'Unknown Player'`/`'Unknown Team'` defaults. -/
theorem mapSplit_fields (s : JVal) :
    isNumberV (getF (mapSplit s) "avg") = true ∧
    isNumberV (getF (mapSplit s) "atBats") = true ∧
    isNumberV (getF (mapSplit s) "hits") = true ∧
    isNumberV (getF (mapSplit s) "homeRuns") = true ∧
    isNumberV (getF (mapSplit s) "rbi") = true ∧
    truthy (getF (mapSplit s) "name") = true ∧
    truthy (getF (mapSplit s) "team") = true := by
  refine ⟨parseFloatJ_isNumber _, parseIntJ_isNumber _, parseIntJ_isNumber _,
    parseIntJ_isNumber _, parseIntJ_isNumber _, ?_, ?_⟩
  · exact jsOr_truthy (jsOr_truthy (jsOr_truthy rfl))
  · exact jsOr_truthy rfl

/-- Every record the flat branch builds carries number-typed values at the
five numeric keys (placed by the explicit overrides); the other keys are
whatever the spread contributed. -/
theorem mapFlat_fields (p : JVal) :
    isNumberV (getF (mapFlat p) "avg") = true ∧
    isNumberV (getF (mapFlat p) "atBats") = true ∧
    isNumberV (getF (mapFlat p) "hits") = true ∧
    isNumberV (getF (mapFlat p) "homeRuns") = true ∧
    isNumberV (getF (mapFlat p) "rbi") = true := by
  unfold mapFlat
  show isNumberV (lookupField (setFields _ _) "avg") = true ∧
    isNumberV (lookupField (setFields _ _) "atBats") = true ∧
    isNumberV (lookupField (setFields _ _) "hits") = true ∧
    isNumberV (lookupField (setFields _ _) "homeRuns") = true ∧
    isNumberV (lookupField (setFields _ _) "rbi") = true
  simp only [setFields]
  refine ⟨?_, ?_, ?_, ?_, ?_⟩
  · rw [lookupField_setField_ne _ (by decide), lookupField_setField_ne _ (by decide),
      lookupField_setField_ne _ (by decide), lookupField_setField_ne _ (by decide),
      lookupField_setField_self]
    exact parseFloatJ_isNumber _
  · rw [lookupField_setField_ne _ (by decide), lookupField_setField_ne _ (by decide),
      lookupField_setField_ne _ (by decide), lookupField_setField_self]
    exact parseIntJ_isNumber _
  · rw [lookupField_setField_ne _ (by decide), lookupField_setField_ne _ (by decide),
      lookupField_setField_self]
    exact parseIntJ_isNumber _
  · rw [lookupField_setField_ne _ (by decide), lookupField_setField_self]
    exact parseIntJ_isNumber _
  · rw [lookupField_setField_self]
    exact parseIntJ_isNumber _

/-- C1 (amended): when a payload matches neither recognized shape,
`extractBattingData` catches its own `Error` and returns the empty list
instead of propagating a failure; the Controller therefore never reaches
its `catch` branch on this path — it renders the (empty) chart and the
"No Batting Data Available" stats message, not an error message. -/
theorem shapeless_payload_renders_no_data_not_error (season p : JVal)
    (hpass : emptyCheck p = false) (hshape : extractBattingData p = []) :
    fetchAndVisualizeData season (.ok p) = .chartAndNoDataMsg := by
  simp [fetchAndVisualizeData, getPlayerBattingStats, hpass, hshape]

/-- C1 witness: the concrete shapeless payload `apiShapeless` reaches the
normalizer unreplaced, normalizes to `[]`, and the page shows the no-data
message. -/
theorem shapeless_payload_renders_no_data_not_error_witness :
    fetchAndVisualizeData (.vstr "2025") (.ok apiShapeless) = .chartAndNoDataMsg :=
  shapeless_payload_renders_no_data_not_error (.vstr "2025") apiShapeless rfl rfl

/-- C1 counterexample: the claim says a shape mismatch is propagated to the
Controller as a failure and its catch path renders a visible error
message; on `apiShapeless` the Controller's outcome is the no-data render,
not the error render. -/
theorem shapeless_payload_no_error_message :
    fetchAndVisualizeData (.vstr "2025") (.ok apiShapeless) = .chartAndNoDataMsg ∧
    RenderResult.chartAndNoDataMsg ≠ RenderResult.errorMessage :=
  ⟨rfl, fun h => RenderResult.noConfusion h⟩

/-! ## Claim C2 — field presence and typing after normalization -/

/-- C2 (amended): every record the normalizer returns carries the five
numeric fields `avg`, `atBats`, `hits`, `homeRuns`, `rbi`, always of
number type (a rational or `NaN`, never a string, never missing) — `avg`
is `0` only when the source fields are absent or falsy, and `NaN` when a
source field is present but unparsable; and every record built by the API
branch additionally carries truthy (present, defaulted) `name` and `team`.
Records of the flat branch inherit `name`/`team` from the source object
unchanged, so those two fields can be missing there (see the
counterexample). -/
theorem normalized_records_numeric_fields :
    (∀ d r, r ∈ extractBattingData d →
      isNumberV (getF r "avg") = true ∧
      isNumberV (getF r "atBats") = true ∧
      isNumberV (getF r "hits") = true ∧
      isNumberV (getF r "homeRuns") = true ∧
      isNumberV (getF r "rbi") = true) ∧
    (∀ s, truthy (getF (mapSplit s) "name") = true ∧
      truthy (getF (mapSplit s) "team") = true) := by
  constructor
  · intro d r hr
    rcases extract_shape d with h | ⟨l, h, hl⟩
    · rw [h] at hr
      simp at hr
    · rw [h] at hr
      rcases hl r (mem_sortAvgDesc.mp hr) with ⟨s, hs⟩ | ⟨p, hp⟩
      · subst hs
        obtain ⟨h1, h2, h3, h4, h5, _, _⟩ := mapSplit_fields s
        exact ⟨h1, h2, h3, h4, h5⟩
      · subst hp
        exact mapFlat_fields p
  · intro s
    obtain ⟨_, _, _, _, _, h6, h7⟩ := mapSplit_fields s
    exact ⟨h6, h7⟩

/-- C2 witness: the amended theorem applied to the concrete payload
`flatNum` and its produced record. -/
theorem normalized_records_numeric_fields_witness :
    isNumberV (getF recFlatNum "avg") = true ∧
    isNumberV (getF recFlatNum "atBats") = true :=
  ⟨(normalized_records_numeric_fields.1 flatNum recFlatNum
      (by rw [show extractBattingData flatNum = [recFlatNum] from rfl]
          exact List.mem_singleton.mpr rfl)).1,
   (normalized_records_numeric_fields.1 flatNum recFlatNum
      (by rw [show extractBattingData flatNum = [recFlatNum] from rfl]
          exact List.mem_singleton.mpr rfl)).2.1⟩

/-- C2 counterexample: on the recognized payload `flatBad` the produced
record has no `name` and no `team` field at all (the claim says they are
always strings), and its `avg` is `NaN`, not the claimed default `0`,
although the source `avg` is present-but-unparsable. -/
theorem normalized_record_missing_name_and_nan_avg :
    extractBattingData flatBad = [recFlatBad] ∧
    getF recFlatBad "name" = .vundefined ∧
    getF recFlatBad "team" = .vundefined ∧
    getF recFlatBad "avg" = .vnan ∧
    JVal.vnan ≠ JVal.vnum 0 :=
  ⟨rfl, rfl, rfl, rfl, fun h => JVal.noConfusion h⟩

/-! ## Claim C3 — descending order of the normalized output -/

/-- C3 (amended): whenever every record the normalizer returns carries a
real (non-`NaN`) `avg`, the returned sequence is sorted non-increasingly
by `avg`, whatever the source order was.  (With a `NaN` produced by an
unparsable source field, no order counts as non-increasing — see the
counterexample.) -/
theorem extractBattingData_sorted_desc (d : JVal)
    (h : (extractBattingData d).all realAvg = true) :
    isSortedDesc (extractBattingData d) = true := by
  rcases extract_shape d with hs | ⟨l, hs, _⟩ <;> rw [hs]
  · rfl
  · rw [hs] at h
    exact sortAvgDesc_sorted_of_out (List.all_eq_true.mp h)

/-- C3 witness: the amended theorem applied to `flatTwo`, whose source
order is ascending; the output is sorted descending. -/
theorem extractBattingData_sorted_desc_witness :
    isSortedDesc (extractBattingData flatTwo) = true :=
  extractBattingData_sorted_desc flatTwo (by rfl)

/-- C3 counterexample: `flatMix` is of the recognized flat shape, yet the
normalizer's output is not non-increasing in `avg` — the first record's
`avg` is `NaN`, and a `NaN` compares greater-or-equal to nothing.  (The
sort comparator returns `NaN` on such a pair, which `Array.prototype.sort`
treats as `+0`; the resulting order is implementation-defined, but every
admissible order contains the `NaN` record and the numeric record, so no
admissible order is non-increasing in `avg`; the fixed order below is the
stable one.) -/
theorem extractBattingData_not_sorted_on_nan :
    extractBattingData flatMix =
      [ .vobj [("avg", .vnan), ("atBats", .vnan), ("hits", .vnan),
          ("homeRuns", .vnan), ("rbi", .vnan)]
      , .vobj [("avg", .vnum (mkRat 3 10)), ("atBats", .vnan), ("hits", .vnan),
          ("homeRuns", .vnan), ("rbi", .vnan)] ] ∧
    isSortedDesc (extractBattingData flatMix) = false :=
  ⟨rfl, rfl⟩

/-- C4: whenever the network call fails (`fetchData` rejects or the status
is not ok) or the parsed body fails the zero-rows check,
`getPlayerBattingStats` resolves — it never rejects, since the model is a
total function and the `catch` maps the failure to the mock payload —
with the bundled fallback dataset: exactly 30 records, every one of
PlayerRecord shape with `avg` within `[0.260, 0.330]`. -/
theorem getPlayerBattingStats_fallback (season : JVal) (net : NetOutcome)
    (h : net = .fail ∨ ∃ d, net = .ok d ∧ emptyCheck d = true) :
    getF (getPlayerBattingStats season net) "playerBattingStats" = .varr mockList ∧
    mockList.length = 30 ∧
    mockList.all mockRecOk = true := by
  refine ⟨?_, rfl, by decide⟩
  rcases h with h | ⟨d, hd, he⟩
  · subst h
    rfl
  · subst hd
    show getF (if emptyCheck d = true then _ else d) "playerBattingStats" = _
    rw [if_pos he]
    rfl

/-- C4 witness: the theorem at a failed fetch for season "2025". -/
theorem getPlayerBattingStats_fallback_witness :
    getF (getPlayerBattingStats (.vstr "2025") .fail) "playerBattingStats" =
      .varr mockList ∧
    mockList.length = 30 ∧
    mockList.all mockRecOk = true :=
  getPlayerBattingStats_fallback (.vstr "2025") .fail (Or.inl rfl)

/-! ## Claim C5 — rendering: at most 30 bars, both orders non-increasing -/

/-- C5: for every valid PlayerRecord list (every record's `avg` is a real
number), `updateVisualization` renders at most 30 bars (one label per
displayed record), and both the chart's bar order (`visData`, the order of
`labels`/`avgValues`/colour arrays) and `addPlayerTable`'s row order are
non-increasing in `avg`. -/
theorem updateVisualization_bounded_and_sorted (data : List JVal)
    (h : data.all realAvg = true) :
    (updateVisualization data).labels.length ≤ 30 ∧
    isSortedDesc (updateVisualization data).visData = true ∧
    isSortedDesc (updateVisualization data).tableRows = true := by
  have hall := List.all_eq_true.mp h
  have htake : ∀ y ∈ data.take 30, realAvg y = true :=
    fun y hy => hall y (List.take_subset 30 data hy)
  refine ⟨?_, ?_, ?_⟩
  · show (List.map _ (sortAvgDesc (data.take 30))).length ≤ 30
    rw [List.length_map, length_sortAvgDesc, List.length_take]
    exact min_le_left _ _
  · exact sortAvgDesc_sorted htake
  · show isSortedDesc (sortAvgDesc (sortAvgDesc (data.take 30))) = true
    exact sortAvgDesc_sorted
      (fun y hy => htake y (mem_sortAvgDesc.mp hy))

/-- C5 witness: the theorem at the concrete two-record list `visTwo`. -/
theorem updateVisualization_bounded_and_sorted_witness :
    (updateVisualization visTwo).labels.length ≤ 30 ∧
    isSortedDesc (updateVisualization visTwo).visData = true ∧
    isSortedDesc (updateVisualization visTwo).tableRows = true :=
  updateVisualization_bounded_and_sorted visTwo (by rfl)

theorem chartRun_originalBackground (players : List JVal) :
    ∀ (evs : List ChartEvent) (s : ChartColors),
      (evs.foldl (chartStep players) s).originalBackground =
        s.originalBackground := by
  intro evs
  induction evs with
  | nil => intro s; rfl
  | cons e rest ih =>
    intro s
    rw [List.foldl_cons, ih]
    cases e <;> rfl

theorem chartRun_originalBorder (players : List JVal) :
    ∀ (evs : List ChartEvent) (s : ChartColors),
      (evs.foldl (chartStep players) s).originalBorder = s.originalBorder := by
  intro evs
  induction evs with
  | nil => intro s; rfl
  | cons e rest ih =>
    intro s
    rw [List.foldl_cons, ih]
    cases e <;> rfl

/-- C6: whatever pointer events have already happened, hovering a bar of
team `T` sets every bar whose record's `team` equals `T` to its original
colour and every other bar to `fadeColor` of its *original* colour (the
retained arrays, not the currently displayed ones) — so repeated hovers
never fade cumulatively — and leaving the chart restores the background
and border arrays to exactly the originals. -/
theorem highlightTeam_from_originals_and_reset (players : List JVal)
    (bg bd : List String) (evs : List ChartEvent) (T : String) :
    (chartStep players (chartRun players bg bd evs) (.hoverBar T)).background =
      List.zipWith
        (fun p c => if teamEqStr (getF p "team") T then c else fadeColor c)
        players bg ∧
    (chartStep players (chartRun players bg bd evs) (.hoverBar T)).border =
      List.zipWith
        (fun p c => if teamEqStr (getF p "team") T then c else fadeColor c)
        players bd ∧
    (chartStep players (chartRun players bg bd evs) .mouseLeave).background = bg ∧
    (chartStep players (chartRun players bg bd evs) .mouseLeave).border = bd := by
  have hbg : (chartRun players bg bd evs).originalBackground = bg :=
    chartRun_originalBackground players evs (chartInit bg bd)
  have hbd : (chartRun players bg bd evs).originalBorder = bd :=
    chartRun_originalBorder players evs (chartInit bg bd)
  refine ⟨?_, ?_, ?_, ?_⟩
  · show highlightColorsArr T players
      (resetBarColors (chartRun players bg bd evs)).originalBackground = _
    rw [show (resetBarColors (chartRun players bg bd evs)).originalBackground =
      (chartRun players bg bd evs).originalBackground from rfl, hbg]
    rfl
  · show highlightColorsArr T players
      (resetBarColors (chartRun players bg bd evs)).originalBorder = _
    rw [show (resetBarColors (chartRun players bg bd evs)).originalBorder =
      (chartRun players bg bd evs).originalBorder from rfl, hbd]
    rfl
  · exact hbg
  · exact hbd

/-! ## Claim C7 — summary panel: league average and best/worst selection -/

theorem foldl_sumAvg {l : List JVal} (h : ∀ r ∈ l, realAvg r = true) :
    ∀ (a : ℚ), l.foldl (fun acc r => jsAddNum acc (avgOf r)) (.vnum a) =
      .vnum (a + (l.map avgQ).sum) := by
  induction l with
  | nil => intro a; simp
  | cons r rest ih =>
    intro a
    rw [List.foldl_cons]
    have hr := avgOf_of_realAvg (h r (List.mem_cons_self r rest))
    rw [show jsAddNum (JVal.vnum a) (avgOf r) = .vnum (a + avgQ r) by
      rw [hr]; rfl]
    rw [ih (fun x hx => h x (List.mem_cons_of_mem r hx))]
    simp [add_assoc]

/-- The computed league average is the exact arithmetic mean of the
displayed `avg` values (exact in the rational model; the page then renders
it with `toFixed(3)`). -/
theorem avgBattingAvg_is_mean (l : List JVal) (hne : l ≠ [])
    (h : l.all realAvg = true) :
    avgBattingAvg l = .vnum ((l.map avgQ).sum / l.length) := by
  unfold avgBattingAvg sumAvg
  rw [foldl_sumAvg (List.all_eq_true.mp h) 0]
  have hlen : (l.length : ℚ) ≠ 0 := by
    simpa using fun h0 => hne (List.length_eq_zero.mp h0)
  show (if (l.length : ℚ) = 0 then JVal.vnan
    else JVal.vnum ((0 + (l.map avgQ).sum) / l.length)) = _
  rw [if_neg hlen, zero_add]

theorem foldl_pickBest_strict {b : JVal} (hb : realAvg b = true) :
    ∀ {l2 : List JVal}, (∀ r ∈ l2, realAvg r = true ∧ avgQ r < avgQ b) →
      l2.foldl pickBest b = b := by
  intro l2
  induction l2 with
  | nil => intro _; rfl
  | cons x xs ih =>
    intro h2
    obtain ⟨hx, hxlt⟩ := h2 x (List.mem_cons_self x xs)
    rw [List.foldl_cons]
    rw [show pickBest b x = b by
      unfold pickBest
      rw [avgOf_of_realAvg hb, avgOf_of_realAvg hx]
      simp [jsGTval, hxlt]]
    exact ih (fun r hr => h2 r (List.mem_cons_of_mem x hr))

theorem foldl_pickBest_through {b : JVal} (hb : realAvg b = true)
    {l2 : List JVal} (h2 : ∀ r ∈ l2, realAvg r = true ∧ avgQ r < avgQ b) :
    ∀ {l1 : List JVal} {acc : JVal}, realAvg acc = true → avgQ acc ≤ avgQ b →
      (∀ r ∈ l1, realAvg r = true ∧ avgQ r ≤ avgQ b) →
      (l1 ++ b :: l2).foldl pickBest acc = b := by
  intro l1
  induction l1 with
  | nil =>
    intro acc hacc hle _
    rw [List.nil_append, List.foldl_cons]
    rw [show pickBest acc b = b by
      unfold pickBest
      rw [avgOf_of_realAvg hacc, avgOf_of_realAvg hb]
      simp [jsGTval, not_lt.mpr hle]]
    exact foldl_pickBest_strict hb h2
  | cons x xs ih =>
    intro acc hacc hle h1
    obtain ⟨hx, hxle⟩ := h1 x (List.mem_cons_self x xs)
    rw [List.cons_append, List.foldl_cons]
    have hrest : ∀ r ∈ xs, realAvg r = true ∧ avgQ r ≤ avgQ b :=
      fun r hr => h1 r (List.mem_cons_of_mem x hr)
    unfold pickBest
    split
    · exact ih hacc hle hrest
    · exact ih hx hxle hrest

theorem foldl_pickWorst_strict {b : JVal} (hb : realAvg b = true) :
    ∀ {l2 : List JVal}, (∀ r ∈ l2, realAvg r = true ∧ avgQ b < avgQ r) →
      l2.foldl pickWorst b = b := by
  intro l2
  induction l2 with
  | nil => intro _; rfl
  | cons x xs ih =>
    intro h2
    obtain ⟨hx, hxgt⟩ := h2 x (List.mem_cons_self x xs)
    rw [List.foldl_cons]
    rw [show pickWorst b x = b by
      unfold pickWorst
      rw [avgOf_of_realAvg hb, avgOf_of_realAvg hx]
      simp [jsGTval, hxgt]]
    exact ih (fun r hr => h2 r (List.mem_cons_of_mem x hr))

theorem foldl_pickWorst_through {b : JVal} (hb : realAvg b = true)
    {l2 : List JVal} (h2 : ∀ r ∈ l2, realAvg r = true ∧ avgQ b < avgQ r) :
    ∀ {l1 : List JVal} {acc : JVal}, realAvg acc = true → avgQ b ≤ avgQ acc →
      (∀ r ∈ l1, realAvg r = true ∧ avgQ b ≤ avgQ r) →
      (l1 ++ b :: l2).foldl pickWorst acc = b := by
  intro l1
  induction l1 with
  | nil =>
    intro acc hacc hle _
    rw [List.nil_append, List.foldl_cons]
    rw [show pickWorst acc b = b by
      unfold pickWorst
      rw [avgOf_of_realAvg hacc, avgOf_of_realAvg hb]
      simp [jsGTval, not_lt.mpr hle]]
    exact foldl_pickWorst_strict hb h2
  | cons x xs ih =>
    intro acc hacc hle h1
    obtain ⟨hx, hxge⟩ := h1 x (List.mem_cons_self x xs)
    rw [List.cons_append, List.foldl_cons]
    have hrest : ∀ r ∈ xs, realAvg r = true ∧ avgQ b ≤ avgQ r :=
      fun r hr => h1 r (List.mem_cons_of_mem x hr)
    unfold pickWorst
    split
    · exact ih hacc hle hrest
    · exact ih hx hxge hrest

/-- C7 (amended): for every non-empty displayed list of real-`avg` records
the computed league average equals the exact arithmetic mean; and the
best/worst reduces select a record of maximal/minimal `avg` with ties
broken by the LAST occurrence in input order: `b` is selected exactly when
nothing before it beats it and everything after it is strictly worse. -/
theorem updateStatsInfo_mean_best_worst :
    (∀ l : List JVal, l ≠ [] → l.all realAvg = true →
      avgBattingAvg l = .vnum ((l.map avgQ).sum / l.length)) ∧
    (∀ (l1 : List JVal) (b : JVal) (l2 : List JVal),
      (l1 ++ b :: l2).all realAvg = true →
      (∀ r ∈ l1, avgQ r ≤ avgQ b) → (∀ r ∈ l2, avgQ r < avgQ b) →
      bestBatter (l1 ++ b :: l2) = b) ∧
    (∀ (l1 : List JVal) (b : JVal) (l2 : List JVal),
      (l1 ++ b :: l2).all realAvg = true →
      (∀ r ∈ l1, avgQ b ≤ avgQ r) → (∀ r ∈ l2, avgQ b < avgQ r) →
      worstBatter (l1 ++ b :: l2) = b) := by
  refine ⟨avgBattingAvg_is_mean, ?_, ?_⟩
  · intro l1 b l2 hall h1 h2
    have hmem := List.all_eq_true.mp hall
    have hb : realAvg b = true :=
      hmem b (List.mem_append_right l1 (List.mem_cons_self b l2))
    have h2' : ∀ r ∈ l2, realAvg r = true ∧ avgQ r < avgQ b := fun r hr =>
      ⟨hmem r (List.mem_append_right l1 (List.mem_cons_of_mem b hr)), h2 r hr⟩
    cases l1 with
    | nil =>
      show l2.foldl pickBest b = b
      exact foldl_pickBest_strict hb h2'
    | cons x xs =>
      show (xs ++ b :: l2).foldl pickBest x = b
      have hx : realAvg x = true :=
        hmem x (List.mem_append_left _ (List.mem_cons_self x xs))
      refine foldl_pickBest_through hb h2' hx
        (h1 x (List.mem_cons_self x xs)) (fun r hr => ?_)
      exact ⟨hmem r (List.mem_append_left _ (List.mem_cons_of_mem x hr)),
        h1 r (List.mem_cons_of_mem x hr)⟩
  · intro l1 b l2 hall h1 h2
    have hmem := List.all_eq_true.mp hall
    have hb : realAvg b = true :=
      hmem b (List.mem_append_right l1 (List.mem_cons_self b l2))
    have h2' : ∀ r ∈ l2, realAvg r = true ∧ avgQ b < avgQ r := fun r hr =>
      ⟨hmem r (List.mem_append_right l1 (List.mem_cons_of_mem b hr)), h2 r hr⟩
    cases l1 with
    | nil =>
      show l2.foldl pickWorst b = b
      exact foldl_pickWorst_strict hb h2'
    | cons x xs =>
      show (xs ++ b :: l2).foldl pickWorst x = b
      have hx : realAvg x = true :=
        hmem x (List.mem_append_left _ (List.mem_cons_self x xs))
      refine foldl_pickWorst_through hb h2' hx
        (h1 x (List.mem_cons_self x xs)) (fun r hr => ?_)
      exact ⟨hmem r (List.mem_append_left _ (List.mem_cons_of_mem x hr)),
        h1 r (List.mem_cons_of_mem x hr)⟩

/-- C7 witness: the amended theorem applied at concrete inputs — the mean
at `[pA, pC]`, and the best-batter selection at `l1 = [pA]`, `b = pB`,
`l2 = [pC]` (so the tie between `pA` and `pB` resolves to the later
`pB`). -/
theorem updateStatsInfo_mean_best_worst_witness :
    avgBattingAvg [pA, pC] =
      .vnum ((([pA, pC]).map avgQ).sum / ([pA, pC] : List JVal).length) ∧
    bestBatter [pA, pB, pC] = pB :=
  ⟨updateStatsInfo_mean_best_worst.1 [pA, pC] (by simp) (by rfl),
   updateStatsInfo_mean_best_worst.2.1 [pA] pB [pC] (by rfl)
     (by intro r hr; simp only [List.mem_singleton] at hr; subst hr; decide)
     (by intro r hr; simp only [List.mem_singleton] at hr; subst hr; decide)⟩

/-- C7 counterexample: the claim says ties are broken by FIRST occurrence;
on the tied list `[pA, pB]` both reduces select `pB`, the LAST
occurrence, not `pA`. -/
theorem bestBatter_tie_last_not_first :
    bestBatter [pA, pB] = pB ∧ worstBatter [pA, pB] = pB ∧ pB ≠ pA := by
  refine ⟨rfl, rfl, ?_⟩
  intro h
  have hnames : getF pB "name" = getF pA "name" := by rw [h]
  rw [show getF pB "name" = .vstr "B" from rfl,
    show getF pA "name" = .vstr "A" from rfl] at hnames
  injection hnames with h2
  exact absurd h2 (by decide)

/-! ## Claim C8 — clearObjects and the team legend -/

/-- C8 (code bug): from the Rendered state (live chart, team legend with
id `team-legend` attached by `addTeamLegend`), `clearObjects` does destroy
the chart and null the handle, but it looks up id `custom-legend` — an id
nothing ever creates — so the team legend is NOT removed from the
document, contradicting the claim and the spec
("releases chart handle, removes transient legend"). -/
theorem clearObjects_keeps_team_legend :
    (addTeamLegend { chart := true, elementIds := [] }).elementIds =
      ["team-legend"] ∧
    clearObjects (addTeamLegend { chart := true, elementIds := [] }) =
      { chart := false, elementIds := ["team-legend"] } ∧
    "team-legend" ∈
      (clearObjects (addTeamLegend
        { chart := true, elementIds := [] })).elementIds := by
  refine ⟨rfl, rfl, ?_⟩
  exact List.mem_singleton.mpr rfl

/-! ## Claim C9 — total, stable team-colour lookup -/

/-- C9 (amended): for every name that is not one of the
`Object.prototype` property keys, `getTeamColors` returns a
`{primary, secondary}` pair: the table's entry when the name is a known
key, and the fixed `"Unknown Team"` fallback pair otherwise.  (It is a
pure total Lean function, so freedom from failure, absence of side
effects, and same-input/same-output stability hold by construction.) -/
theorem getTeamColors_total_pair (name : String)
    (h : name ∉ objectProtoKeys) :
    isColorPair (getTeamColors name) = true ∧
    (lookupColors MLB_TEAM_COLORS name = none →
      getTeamColors name = .colorPair "#666666" "#CCCCCC") ∧
    (∀ p s, lookupColors MLB_TEAM_COLORS name = some (p, s) →
      getTeamColors name = .colorPair p s) := by
  have hproto : name ≠ "__proto__" := by
    intro he
    exact h (he ▸ (by decide : "__proto__" ∈ objectProtoKeys))
  unfold getTeamColors mlbTeamColorsRead
  cases hl : lookupColors MLB_TEAM_COLORS name with
  | some ps =>
    obtain ⟨p, s⟩ := ps
    refine ⟨rfl, ?_, ?_⟩
    · intro hnone
      exact Option.noConfusion hnone
    · intro p2 s2 hsome
      injection hsome with hps
      injection hps with hp hs
      subst hp
      subst hs
      rfl
  | none =>
    dsimp only
    rw [if_neg hproto, if_neg h]
    exact ⟨rfl, fun _ => rfl, fun p s hsome => Option.noConfusion hsome⟩

/-- C9 witness: the theorem at the unknown name "Gotham Goblins", which
gets the fallback pair. -/
theorem getTeamColors_total_pair_witness :
    isColorPair (getTeamColors "Gotham Goblins") = true ∧
    getTeamColors "Gotham Goblins" = .colorPair "#666666" "#CCCCCC" :=
  ⟨(getTeamColors_total_pair "Gotham Goblins" (by decide)).1,
   (getTeamColors_total_pair "Gotham Goblins" (by decide)).2.1 rfl⟩

/-- C9 counterexample: `"toString"` is not a key of the static table, yet
`getTeamColors "toString"` does not return the fallback pair — the object
literal inherits `Object.prototype.toString`, which is truthy, so the
`||` keeps it and the caller receives a function, not a
`{primary, secondary}` pair. -/
theorem getTeamColors_toString_not_pair :
    lookupColors MLB_TEAM_COLORS "toString" = none ∧
    getTeamColors "toString" = .protoFn "toString" ∧
    getTeamColors "toString" ≠ .colorPair "#666666" "#CCCCCC" ∧
    isColorPair (getTeamColors "toString") = false :=
  ⟨rfl, rfl, by decide, rfl⟩

theorem takeWhile_eq_nil_head {p : Char → Bool} {c : Char} {cs : List Char}
    (h : (c :: cs).takeWhile p = []) : p c = false := by
  rw [List.takeWhile_cons] at h
  by_cases hc : p c = true
  · rw [hc] at h
    simp at h
  · simpa using hc

theorem takeWhile_nil_append {p : Char → Bool} {l1 l2 : List Char}
    (h1 : l1.takeWhile p = []) (h2 : l2.takeWhile p = []) :
    (l1 ++ l2).takeWhile p = [] := by
  cases l1 with
  | nil => simpa using h2
  | cons c cs =>
    have hc := takeWhile_eq_nil_head h1
    rw [List.cons_append, List.takeWhile_cons, hc]
    simp

theorem dropWhile_eq_self_of_takeWhile_nil {p : Char → Bool} :
    ∀ {l : List Char}, l.takeWhile p = [] → l.dropWhile p = l := by
  intro l h
  cases l with
  | nil => rfl
  | cons c cs =>
    have hc := takeWhile_eq_nil_head h
    rw [List.dropWhile_cons, hc]
    simp

theorem takeWhile_all_append {p : Char → Bool} :
    ∀ (pre : List Char), pre.all p = true → ∀ {l : List Char},
      l.takeWhile p = [] →
      (pre ++ l).takeWhile p = pre ∧ (pre ++ l).dropWhile p = l := by
  intro pre
  induction pre with
  | nil =>
    intro _ l hl
    exact ⟨by simpa using hl, by simpa using dropWhile_eq_self_of_takeWhile_nil hl⟩
  | cons a pre ih =>
    intro hall l hl
    rw [List.all_cons, Bool.and_eq_true] at hall
    obtain ⟨h1, h2⟩ := (ih hall.2 hl : _)
    constructor
    · rw [List.cons_append, List.takeWhile_cons, hall.1, h1]
      simp
    · rw [List.cons_append, List.dropWhile_cons, hall.1]
      simpa using h2

theorem takeWhile_dropWhile_nil {p : Char → Bool} :
    ∀ (l : List Char), (l.dropWhile p).takeWhile p = [] := by
  intro l
  induction l with
  | nil => rfl
  | cons c cs ih =>
    rw [List.dropWhile_cons]
    by_cases hc : p c = true
    · rw [if_pos hc]
      exact ih
    · rw [if_neg hc, List.takeWhile_cons,
        show p c = false by simpa using hc]
      simp

theorem takeWhile_all {p : Char → Bool} :
    ∀ (l : List Char), (l.takeWhile p).all p = true := by
  intro l
  induction l with
  | nil => rfl
  | cons c cs ih =>
    rw [List.takeWhile_cons]
    by_cases hc : p c = true
    · rw [if_pos hc, List.all_cons, hc]
      simp [ih]
    · rw [if_neg hc]
      rfl

/-- Any string of the form `rgba…X0.2)` with `X` not a digit or dot is a
fixed point of `fadeColorL`: the regex replace strips exactly the final
`0.2` run and writes `0.2)` back. -/
theorem fadeColorL_fixpoint (Q : List Char)
    (hQ : (Q.reverse ++ ['a', 'b', 'g', 'r']).takeWhile isDigitDot = []) :
    fadeColorL ('r' :: 'g' :: 'b' :: 'a' :: (Q ++ ['0', '.', '2', ')'])) =
      'r' :: 'g' :: 'b' :: 'a' :: (Q ++ ['0', '.', '2', ')']) := by
  unfold fadeColorL
  rw [if_neg (by simp [List.isPrefixOf]), if_pos (by simp [List.isPrefixOf]),
    if_pos (by simp [List.isPrefixOf])]
  unfold rgbaReplaceL
  have hrev : ('r' :: 'g' :: 'b' :: 'a' :: (Q ++ ['0', '.', '2', ')'])).reverse =
      ')' :: ('2' :: '.' :: '0' :: (Q.reverse ++ ['a', 'b', 'g', 'r'])) := by
    simp
  rw [hrev]
  have htw : ('2' :: '.' :: '0' :: (Q.reverse ++ ['a', 'b', 'g', 'r'])).takeWhile
      isDigitDot = ['2', '.', '0'] :=
    (takeWhile_all_append ['2', '.', '0'] (by decide) hQ).1
  have hdw : ('2' :: '.' :: '0' :: (Q.reverse ++ ['a', 'b', 'g', 'r'])).dropWhile
      isDigitDot = Q.reverse ++ ['a', 'b', 'g', 'r'] :=
    (takeWhile_all_append ['2', '.', '0'] (by decide) hQ).2
  show (if List.takeWhile isDigitDot
        ('2' :: '.' :: '0' :: (Q.reverse ++ ['a', 'b', 'g', 'r'])) = [] then
      'r' :: 'g' :: 'b' :: 'a' :: (Q ++ ['0', '.', '2', ')'])
    else (List.dropWhile isDigitDot
        ('2' :: '.' :: '0' :: (Q.reverse ++ ['a', 'b', 'g', 'r']))).reverse
      ++ ['0', '.', '2', ')']) = _
  rw [htw, if_neg (by decide), hdw]
  simp

theorem insertAlphaL_through : ∀ {body : List Char}, noParenC body = true →
    ∀ rest2, insertAlphaL (body ++ ')' :: rest2) =
      body ++ [',', ' ', '0', '.', '2', ')'] ++ rest2 := by
  intro body
  induction body with
  | nil =>
    intro _ rest2
    simp [insertAlphaL]
  | cons c cs ih =>
    intro h rest2
    unfold noParenC at h
    rw [List.all_cons, Bool.and_eq_true] at h
    have hc : ¬(c = ')') := by simpa using h.1
    rw [List.cons_append]
    show insertAlphaL (c :: (cs ++ ')' :: rest2)) = _
    unfold insertAlphaL
    rw [if_neg hc, ih h.2 rest2]
    simp

theorem takeWhile_append_head {p : Char → Bool} (X : List Char)
    (hX : X.takeWhile p = []) : ∀ (t : List Char),
    (t ++ X).takeWhile p = t.takeWhile p ∧
    (t ++ X).dropWhile p = t.dropWhile p ++ X := by
  intro t
  induction t with
  | nil =>
    refine ⟨by simpa using hX, ?_⟩
    simpa using dropWhile_eq_self_of_takeWhile_nil hX
  | cons c cs ih =>
    by_cases hc : p c = true
    · constructor
      · rw [List.cons_append, List.takeWhile_cons, List.takeWhile_cons, hc]
        simp [ih.1]
      · rw [List.cons_append, List.dropWhile_cons, List.dropWhile_cons, hc]
        simp [ih.2]
    · have hc2 : p c = false := by simpa using hc
      constructor
      · rw [List.cons_append, List.takeWhile_cons, List.takeWhile_cons, hc2]
        simp
      · rw [List.cons_append, List.dropWhile_cons, List.dropWhile_cons, hc2]
        simp

theorem fadeColorL_idem_hash (rest : List Char) :
    fadeColorL (fadeColorL ('#' :: rest)) = fadeColorL ('#' :: rest) ∧
    ∃ pfx, fadeColorL ('#' :: rest) = pfx ++ ['0', '.', '2', ')'] := by
  have heq : fadeColorL ('#' :: rest) =
      'r' :: 'g' :: 'b' :: 'a' ::
        (('(' :: ((numToStr (parseIntHexStr (String.mk (rest.take 2)))).data
          ++ ([',', ' '] ++
            ((numToStr (parseIntHexStr (String.mk ((rest.drop 2).take 2)))).data
          ++ ([',', ' '] ++
            ((numToStr (parseIntHexStr (String.mk ((rest.drop 4).take 2)))).data
          ++ [',', ' '])))))) ++ ['0', '.', '2', ')']) := by
    unfold fadeColorL
    rw [if_pos (by simp [List.isPrefixOf])]
    simp
  constructor
  · rw [heq]
    apply fadeColorL_fixpoint
    simp only [List.reverse_cons, List.reverse_append, List.append_assoc,
      List.cons_append, List.nil_append, List.reverse_nil]
    rw [List.takeWhile_cons, show isDigitDot ' ' = false from rfl]
    simp
  · exact ⟨'r' :: 'g' :: 'b' :: 'a' ::
      ('(' :: ((numToStr (parseIntHexStr (String.mk (rest.take 2)))).data
        ++ ([',', ' '] ++
          ((numToStr (parseIntHexStr (String.mk ((rest.drop 2).take 2)))).data
        ++ ([',', ' '] ++
          ((numToStr (parseIntHexStr (String.mk ((rest.drop 4).take 2)))).data
        ++ [',', ' '])))))), by rw [heq]; simp⟩

theorem fadeColorL_idem_rgb (body : List Char) (hb : noParenC body = true) :
    fadeColorL (fadeColorL ('r' :: 'g' :: 'b' :: '(' :: (body ++ [')']))) =
      fadeColorL ('r' :: 'g' :: 'b' :: '(' :: (body ++ [')'])) ∧
    ∃ pfx, fadeColorL ('r' :: 'g' :: 'b' :: '(' :: (body ++ [')'])) =
      pfx ++ ['0', '.', '2', ')'] := by
  have heq : fadeColorL ('r' :: 'g' :: 'b' :: '(' :: (body ++ [')'])) =
      'r' :: 'g' :: 'b' :: 'a' ::
        (('(' :: (body ++ [',', ' '])) ++ ['0', '.', '2', ')']) := by
    unfold fadeColorL
    rw [if_neg (by simp [List.isPrefixOf]), if_pos (by simp [List.isPrefixOf]),
      if_neg (by simp [List.isPrefixOf])]
    show 'r' :: 'g' :: 'b' :: 'a' :: ('(' :: insertAlphaL (body ++ ')' :: [])) = _
    rw [insertAlphaL_through hb []]
    simp
  constructor
  · rw [heq]
    apply fadeColorL_fixpoint
    simp only [List.reverse_cons, List.reverse_append, List.append_assoc,
      List.cons_append, List.nil_append, List.reverse_nil]
    rw [List.takeWhile_cons, show isDigitDot ' ' = false from rfl]
    simp
  · exact ⟨'r' :: 'g' :: 'b' :: 'a' :: ('(' :: (body ++ [',', ' '])),
      by rw [heq]; simp⟩

theorem fadeColorL_idem_rgba (rest tail : List Char)
    (hrev : rest.reverse = ')' :: tail)
    (hrun : tail.takeWhile isDigitDot ≠ []) :
    fadeColorL (fadeColorL ('r' :: 'g' :: 'b' :: 'a' :: '(' :: rest)) =
      fadeColorL ('r' :: 'g' :: 'b' :: 'a' :: '(' :: rest) ∧
    ∃ pfx, fadeColorL ('r' :: 'g' :: 'b' :: 'a' :: '(' :: rest) =
      pfx ++ ['0', '.', '2', ')'] := by
  have hX : (['(', 'a', 'b', 'g', 'r'] : List Char).takeWhile isDigitDot = [] := rfl
  have heq : fadeColorL ('r' :: 'g' :: 'b' :: 'a' :: '(' :: rest) =
      'r' :: 'g' :: 'b' :: 'a' ::
        (('(' :: (tail.dropWhile isDigitDot).reverse) ++ ['0', '.', '2', ')']) := by
    unfold fadeColorL
    rw [if_neg (by simp [List.isPrefixOf]), if_pos (by simp [List.isPrefixOf]),
      if_pos (by simp [List.isPrefixOf])]
    unfold rgbaReplaceL
    rw [show ('r' :: 'g' :: 'b' :: 'a' :: '(' :: rest).reverse =
        ')' :: (tail ++ ['(', 'a', 'b', 'g', 'r']) by
      rw [show ('r' :: 'g' :: 'b' :: 'a' :: '(' :: rest).reverse =
          rest.reverse ++ ['(', 'a', 'b', 'g', 'r'] by simp, hrev]
      simp]
    show (if (tail ++ ['(', 'a', 'b', 'g', 'r']).takeWhile isDigitDot = [] then
        'r' :: 'g' :: 'b' :: 'a' :: '(' :: rest
      else ((tail ++ ['(', 'a', 'b', 'g', 'r']).dropWhile isDigitDot).reverse
        ++ ['0', '.', '2', ')']) = _
    rw [(takeWhile_append_head _ hX tail).1, if_neg hrun,
      (takeWhile_append_head _ hX tail).2]
    simp
  constructor
  · rw [heq]
    apply fadeColorL_fixpoint
    simp only [List.reverse_cons, List.reverse_append, List.append_assoc,
      List.cons_append, List.nil_append, List.reverse_nil, List.reverse_reverse]
    exact takeWhile_nil_append (takeWhile_dropWhile_nil tail) rfl
  · exact ⟨'r' :: 'g' :: 'b' :: 'a' ::
      ('(' :: (tail.dropWhile isDigitDot).reverse), by rw [heq]; simp⟩

theorem noParenC_reverse (l : List Char) : noParenC l.reverse = noParenC l := by
  unfold noParenC
  rw [List.all_reverse]

/-- C10 (amended): `fadeColor` is idempotent on its recognized colour
formats — for every well-formed `#rrggbb`, `rgb(...)` or `rgba(...)`
string `c`, `fadeColor (fadeColor c) = fadeColor c` and the result ends in
opacity `0.2)` — and a string starting with neither `#` nor `rgb` is
returned unchanged.  (A string starting with `#` or `rgb` that is NOT in
one of the three formats is still transformed, not returned unchanged —
see the counterexample.) -/
theorem fadeColor_idem_on_recognized :
    (∀ s : String, isHexColorFormat s = true →
      fadeColor (fadeColor s) = fadeColor s ∧
      ∃ pfx, (fadeColor s).data = pfx ++ ['0', '.', '2', ')']) ∧
    (∀ s : String, isRgbColorFormat s = true →
      fadeColor (fadeColor s) = fadeColor s ∧
      ∃ pfx, (fadeColor s).data = pfx ++ ['0', '.', '2', ')']) ∧
    (∀ s : String, isRgbaColorFormat s = true →
      fadeColor (fadeColor s) = fadeColor s ∧
      ∃ pfx, (fadeColor s).data = pfx ++ ['0', '.', '2', ')']) ∧
    (∀ s : String, (['#'] : List Char).isPrefixOf s.data = false →
      (['r', 'g', 'b'] : List Char).isPrefixOf s.data = false →
      fadeColor s = s) := by
  refine ⟨?_, ?_, ?_, ?_⟩
  · intro s h
    unfold isHexColorFormat at h
    split at h
    · rename_i rest heq
      obtain ⟨hidem, pfx, hp⟩ := fadeColorL_idem_hash rest
      refine ⟨?_, pfx, ?_⟩
      · show String.mk (fadeColorL (String.mk (fadeColorL s.data)).data) =
          String.mk (fadeColorL s.data)
        rw [heq]
        exact congrArg String.mk hidem
      · show fadeColorL s.data = _
        rw [heq, hp]
    · exact absurd h (by simp)
  · intro s h
    unfold isRgbColorFormat at h
    split at h
    · rename_i rest heq
      revert h
      split
      · rename_i bodyRev hrev
        intro h
        have hrest : rest = bodyRev.reverse ++ [')'] := by
          rw [show rest = rest.reverse.reverse by simp, hrev]
          simp
        have hb : noParenC bodyRev.reverse = true := by
          rw [noParenC_reverse]
          exact h
        obtain ⟨hidem, pfx, hp⟩ := fadeColorL_idem_rgb bodyRev.reverse hb
        refine ⟨?_, pfx, ?_⟩
        · show String.mk (fadeColorL (String.mk (fadeColorL s.data)).data) =
            String.mk (fadeColorL s.data)
          rw [heq, hrest]
          exact congrArg String.mk hidem
        · show fadeColorL s.data = _
          rw [heq, hrest, hp]
      · intro h
        exact absurd h (by simp)
    · exact absurd h (by simp)
  · intro s h
    unfold isRgbaColorFormat at h
    split at h
    · rename_i rest heq
      revert h
      split
      · rename_i tail hrev
        intro h
        have hrun : tail.takeWhile isDigitDot ≠ [] := by
          intro hnil
          rw [hnil] at h
          simp at h
        obtain ⟨hidem, pfx, hp⟩ := fadeColorL_idem_rgba rest tail hrev hrun
        refine ⟨?_, pfx, ?_⟩
        · show String.mk (fadeColorL (String.mk (fadeColorL s.data)).data) =
            String.mk (fadeColorL s.data)
          rw [heq]
          exact congrArg String.mk hidem
        · show fadeColorL s.data = _
          rw [heq, hp]
      · intro h
        exact absurd h (by simp)
    · exact absurd h (by simp)
  · intro s h1 h2
    show String.mk (fadeColorL s.data) = s
    unfold fadeColorL
    rw [if_neg (by simp [h1]), if_neg (by simp [h2])]

/-- C10 witness: the amended theorem applied to one concrete string of
each recognized format and one unrecognized string. -/
theorem fadeColor_idem_on_recognized_witness :
    (fadeColor (fadeColor "#DF4601") = fadeColor "#DF4601") ∧
    (fadeColor (fadeColor "rgb(10, 20, 30)") = fadeColor "rgb(10, 20, 30)") ∧
    (fadeColor (fadeColor "rgba(10, 20, 30, 0.5)") =
      fadeColor "rgba(10, 20, 30, 0.5)") ∧
    fadeColor "steelblue" = "steelblue" :=
  ⟨(fadeColor_idem_on_recognized.1 "#DF4601" (by decide)).1,
   (fadeColor_idem_on_recognized.2.1 "rgb(10, 20, 30)" (by decide)).1,
   (fadeColor_idem_on_recognized.2.2.1 "rgba(10, 20, 30, 0.5)" (by decide)).1,
   fadeColor_idem_on_recognized.2.2.2 "steelblue" (by decide) (by decide)⟩

/-- C10 counterexample: `"#ab"` is in none of the claim's recognized
formats (`#rrggbb` needs six hex digits), yet `fadeColor` does not return
it unchanged — the `#` branch still fires and produces
`rgba(171, NaN, NaN, 0.2)`. -/
theorem fadeColor_changes_malformed_hash :
    isHexColorFormat "#ab" = false ∧
    isRgbColorFormat "#ab" = false ∧
    isRgbaColorFormat "#ab" = false ∧
    fadeColor "#ab" = "rgba(171, NaN, NaN, 0.2)" ∧
    fadeColor "#ab" ≠ "#ab" :=
  ⟨rfl, rfl, rfl, by decide, by decide⟩
